import Mathlib

/-!
Verification of the natural-language specification of the AirBnB_clone
command interpreter (console.py) against a shallow Lean embedding of the
interpreter.  The embedding translates:

* Python library helpers used by the source (`shlex.split`, `str.strip`,
  `str.split` on a one-character separator) into executable list functions;
* every `do_*` handler of `HBNBCommand` and its `default` dotted-notation
  dispatcher, line by line from console.py;
* the relevant part of `cmd.Cmd.onecmd`/`parseline` (the standard-library
  dispatch loop the class inherits from), so that whole input lines can be
  reasoned about.

The domain-model classes (models/) and the storage engine are not part of
the sources; where their behaviour is needed it is modelled from the
specification and marked `Modelled from the spec:` in the doc comment.
Every handler returns the list of printed lines, the resulting object
mapping and whether the store was persisted; `none` models an uncaught
Python exception escaping the handler.
-/

namespace HBNB

/-- Character constants, written by code point so that no quote or escape
characters appear inside character literals. -/
def spaceChar : Char := Char.ofNat 32

/-- Tab character. -/
def tabChar : Char := Char.ofNat 9

/-- Newline character. -/
def nlChar : Char := Char.ofNat 10

/-- Carriage-return character. -/
def crChar : Char := Char.ofNat 13

/-- Single-quote character. -/
def squoteChar : Char := Char.ofNat 39

/-- Double-quote character. -/
def dquoteChar : Char := Char.ofNat 34

/-- Full-stop character. -/
def dotChar : Char := Char.ofNat 46

/-- Opening-parenthesis character. -/
def oparenChar : Char := Char.ofNat 40

/-- Closing-parenthesis character. -/
def cparenChar : Char := Char.ofNat 41

/-- Comma character. -/
def commaChar : Char := Char.ofNat 44

/-- Exclamation-mark character. -/
def bangChar : Char := Char.ofNat 33

/-- Question-mark character. -/
def qmarkChar : Char := Char.ofNat 63

/-- One-character string holding a double quote. -/
def dquoteStr : String := String.mk [dquoteChar]

/-- Model of Python `str.strip(chars)` on character lists: remove leading and
trailing characters that belong to the given set. -/
def pyStripL (chars : List Char) (l : List Char) : List Char :=
  ((l.dropWhile (fun c => c ∈ chars)).reverse.dropWhile (fun c => c ∈ chars)).reverse

/-- Model of Python `str.strip(chars)` on strings. -/
def pyStrip (chars : List Char) (s : String) : String :=
  String.mk (pyStripL chars s.data)

/-- Whitespace characters stripped by Python `str.strip()` with no argument. -/
def wsChars : List Char :=
  [spaceChar, tabChar, nlChar, crChar, Char.ofNat 11, Char.ofNat 12]

/-- Model of Python `str.strip()` with no argument. -/
def pyStripWs (s : String) : String := pyStrip wsChars s

/-- Model of Python `str.split(sep)` for a one-character separator, on
character lists: `splitOnCharL sep l` cuts `l` at every occurrence of `sep`.
Like Python, the empty list yields one empty field. -/
def splitOnCharL (sep : Char) : List Char → List (List Char)
  | [] => [[]]
  | c :: rest =>
    if c = sep then [] :: splitOnCharL sep rest
    else
      match splitOnCharL sep rest with
      | [] => [[c]]
      | r :: rs => (c :: r) :: rs

/-- Model of Python `str.split(sep)` for a one-character separator. -/
def pySplit (s : String) (sep : Char) : List String :=
  (splitOnCharL sep s.data).map String.mk

/-- State machine of Python `shlex.split` in POSIX mode, restricted to the
character repertoire the interpreter actually receives: whitespace separates
tokens, single or double quotes group characters (also mid-token), and an
unclosed quote raises `ValueError`, modelled as `none`.  Backslash escapes
are not modelled; no input considered here contains a backslash.  Arguments:
remaining characters, token under construction (if any), open quote (if
any), finished tokens in reverse order. -/
def shAux : List Char → Option (List Char) → Option Char → List (List Char) →
    Option (List (List Char))
  | [], cur, qst, acc =>
    match qst, cur with
    | some _, _ => none
    | none, none => some acc.reverse
    | none, some t => some (t :: acc).reverse
  | c :: cs, cur, qst, acc =>
    match qst with
    | some q =>
      if c = q then shAux cs (some (cur.getD [])) none acc
      else shAux cs (some (cur.getD [] ++ [c])) (some q) acc
    | none =>
      if c = spaceChar ∨ c = tabChar ∨ c = crChar ∨ c = nlChar then
        match cur with
        | some t => shAux cs none none (t :: acc)
        | none => shAux cs none none acc
      else if c = dquoteChar ∨ c = squoteChar then
        shAux cs (some (cur.getD [])) (some c) acc
      else
        shAux cs (some (cur.getD [] ++ [c])) none acc

/-- Model of `shlex.split` (imported as `split` in console.py line 6). -/
def shlexSplit (s : String) : Option (List String) :=
  (shAux s.data none none []).map (fun ts => ts.map String.mk)

/-- Error message printed when the class name is absent. -/
def msgClassMissing : String := "** class name missing **"

/-- Error message printed when the instance id is absent. -/
def msgIdMissing : String := "** instance id missing **"

/-- Error message printed when no matching instance exists. -/
def msgNoInstance : String := "** no instance found **"

/-- Error message printed for an unrecognized class name. -/
def msgClassNoExist : String := "** class doesn't exist **"

/-- Error message printed when the attribute name is absent in `update`. -/
def msgAttrMissing : String := "** attribute name missing **"

/-- Error message printed when the value is absent in `update`. -/
def msgValueMissing : String := "** value missing **"

/-- Domain object: runtime class name, id attribute, and the extra
attributes set dynamically by `update`.  Creation and update timestamps are
bookkeeping of the excluded models/ package and are not inspected by any
claim. -/
structure Obj where
  cls : String
  id : String
  attrs : List (String × String)
deriving DecidableEq

/-- Object mapping kept by the storage capability: keys are strings of the
form `ClassName.id` in insertion order (console.py reads it through
`storage.all()`). -/
abbrev Storage := List (String × Obj)

/-- Registry of recognized class names, console.py lines 41-49
(`HBNBCommand.class_mapping`). -/
def class_mapping : List String :=
  ["BaseModel", "User", "Place", "State", "City", "Amenity", "Review"]

/-- Modelled from the spec: the seven domain classes live in the excluded
models/ package; the six non-base classes derive from `BaseModel`, so a
Python `isinstance` check against `BaseModel` accepts every domain object
while a check against any other class accepts exactly that class. -/
def isinstance (o : Obj) (c : String) : Bool :=
  o.cls == c || (c == "BaseModel" && class_mapping.contains o.cls)

/-- Modelled from the spec: `BaseModel.__str__` (excluded models/ package)
renders an object as `[ClassName] (id) <attribute mapping>`; the attribute
mapping is rendered by a fixed deterministic function since no claim
inspects its exact text. -/
def attrsRepr (o : Obj) : String :=
  String.intercalate ", " (o.attrs.map (fun p => p.1 ++ ": " ++ p.2))

/-- String form of an object, used by `show` and `all`. -/
def objStr (o : Obj) : String :=
  "[" ++ o.cls ++ "] (" ++ o.id ++ ") " ++ attrsRepr o

/-- Modelled from Python: printing a list of strings renders it as one
bracketed, comma-separated line of quoted strings (console.py prints the
whole list object in `do_all`). -/
def pyListRepr (l : List String) : String :=
  "[" ++
    String.intercalate ", "
      (l.map (fun s => String.mk [squoteChar] ++ s ++ String.mk [squoteChar])) ++
  "]"

/-- Values of the object mapping in insertion order
(`storage.all().values()`). -/
def vals (st : Storage) : List Obj := st.map Prod.snd

/-- Model of `storage.all().get(key)`: first entry with the given key. -/
def lookupStr : Storage → String → Option Obj
  | [], _ => none
  | (k, o) :: rest, key => if k = key then some o else lookupStr rest key

/-- Model of `del storage.all()[key]`: remove the entry with the given key. -/
def removeKey (st : Storage) (key : String) : Storage :=
  st.filter (fun p => ¬ p.1 = key)

/-- Replace or append a binding in an attribute list. -/
def setAssoc : List (String × String) → String → String → List (String × String)
  | [], n, v => [(n, v)]
  | (k, w) :: rest, n, v =>
    if k = n then (k, v) :: rest else (k, w) :: setAssoc rest n v

/-- Model of Python `setattr(obj, name, value)` on a domain object: the `id`
attribute is a real attribute and can be overwritten; other names land in
the open attribute bag. -/
def setAttr (o : Obj) (name v : String) : Obj :=
  if name = "id" then { o with id := v }
  else { o with attrs := setAssoc o.attrs name v }

/-- Result of one handler: printed lines, resulting object mapping, and
whether the store was persisted by this command. -/
structure Res where
  out : List String
  st : Storage
  saved : Bool
deriving DecidableEq

/-- Result of one full dispatch step: printed lines, resulting mapping,
persistence flag, and whether the read-eval loop stops. -/
structure StepRes where
  out : List String
  st : Storage
  saved : Bool
  halt : Bool
deriving DecidableEq

/-- Handlers other than `quit`/`EOF` return `None` in Python, so the loop
continues. -/
def toStep (r : Res) : StepRes := ⟨r.out, r.st, r.saved, false⟩

/-- Body of `HBNBCommand.do_show` after `split(arg)`, console.py lines
98-125: class-name check, id check, registry check, then a polymorphic scan
of all live objects for an `isinstance` match with the requested id. -/
def do_show_tokens (st : Storage) (args : List String) : Res :=
  if args = [] ∨ args.headD "" = "" then ⟨[msgClassMissing], st, false⟩
  else if args.length < 2 then ⟨[msgIdMissing], st, false⟩
  else if class_mapping.contains (args.headD "") then
    match (vals st).filter
        (fun o => isinstance o (args.headD "") && o.id == args.getD 1 "") with
    | [] => ⟨[msgNoInstance], st, false⟩
    | o :: _ => ⟨[objStr o], st, false⟩
  else ⟨[msgClassNoExist], st, false⟩

/-- Model of `HBNBCommand.do_show`, console.py lines 93-125; `none` models
the `ValueError` of an unclosed quote escaping `split` (which sits outside
the `try`). -/
def do_show (st : Storage) (arg : String) : Option Res :=
  (shlexSplit arg).map (do_show_tokens st)

/-- Body of `HBNBCommand.do_destroy` after `split(arg)`, console.py lines
132-152: class-name check, id check, then a plain key lookup of
`ClassName.id` — the class registry is never consulted. -/
def do_destroy_tokens (st : Storage) (args : List String) : Res :=
  if args = [] ∨ args.headD "" = "" then ⟨[msgClassMissing], st, false⟩
  else if args.length < 2 then ⟨[msgIdMissing], st, false⟩
  else
    match lookupStr st (args.headD "" ++ "." ++ args.getD 1 "") with
    | none => ⟨[msgNoInstance], st, false⟩
    | some _ => ⟨[], removeKey st (args.headD "" ++ "." ++ args.getD 1 ""), true⟩

/-- Model of `HBNBCommand.do_destroy`, console.py lines 127-152. -/
def do_destroy (st : Storage) (arg : String) : Option Res :=
  (shlexSplit arg).map (do_destroy_tokens st)

/-- Body of `HBNBCommand.do_update` after `split(arg)`, console.py lines
183-211: class-name check, id check, key lookup, attribute-name check,
value check, then `setattr` on the live object followed by `obj.save()`. -/
def do_update_tokens (st : Storage) (args : List String) : Res :=
  if args = [] ∨ args.headD "" = "" then ⟨[msgClassMissing], st, false⟩
  else if args.length < 2 then ⟨[msgIdMissing], st, false⟩
  else
    match lookupStr st (args.headD "" ++ "." ++ args.getD 1 "") with
    | none => ⟨[msgNoInstance], st, false⟩
    | some _ =>
      if args.length < 3 then ⟨[msgAttrMissing], st, false⟩
      else if args.length < 4 then ⟨[msgValueMissing], st, false⟩
      else
        ⟨[], st.map (fun p =>
          if p.1 = args.headD "" ++ "." ++ args.getD 1 "" then
            (p.1, setAttr p.2 (args.getD 2 "") (args.getD 3 ""))
          else p), true⟩

/-- Model of `HBNBCommand.do_update`, console.py lines 178-211. -/
def do_update (st : Storage) (arg : String) : Option Res :=
  (shlexSplit arg).map (do_update_tokens st)

/-- Body of `HBNBCommand.do_all` after `split(arg)`, console.py lines
159-176: with no (or an empty) class name print every object; otherwise
filter by exact runtime class-name equality and print the unrecognized-class
error exactly when the filtered list is empty. -/
def do_all_tokens (st : Storage) (args : List String) : Res :=
  if args = [] ∨ args.headD "" = "" then
    ⟨[pyListRepr ((vals st).map objStr)], st, false⟩
  else if ((vals st).filter (fun o => o.cls == args.headD "")).map objStr = [] then
    ⟨[msgClassNoExist], st, false⟩
  else
    ⟨[pyListRepr (((vals st).filter (fun o => o.cls == args.headD "")).map objStr)],
      st, false⟩

/-- Model of `HBNBCommand.do_all`, console.py lines 154-176. -/
def do_all (st : Storage) (arg : String) : Option Res :=
  (shlexSplit arg).map (do_all_tokens st)

/-- Body of `HBNBCommand.do_count` after `split(arg)`, console.py lines
220-234: class-name check, registry check, then a polymorphic `isinstance`
count over all live objects. -/
def do_count_tokens (st : Storage) (args : List String) : Res :=
  if args = [] ∨ args.headD "" = "" then ⟨[msgClassMissing], st, false⟩
  else if class_mapping.contains (args.headD "") then
    ⟨[toString ((vals st).filter (fun o => isinstance o (args.headD ""))).length],
      st, false⟩
  else ⟨[msgClassNoExist], st, false⟩

/-- Model of `HBNBCommand.do_count`, console.py lines 213-234. -/
def do_count (st : Storage) (arg : String) : Option Res :=
  (shlexSplit arg).map (do_count_tokens st)

/-- Body of `HBNBCommand.do_create` after `split(arg)`, console.py lines
78-91.  Modelled from the spec: constructing a domain object (excluded
models/ package) draws a fresh uuid — passed in here as `freshId` — and
registers the object under `ClassName.id` via `storage.new`; `save`
persists.  The printed line is the new id. -/
def do_create_tokens (freshId : String) (st : Storage) (args : List String) :
    Res :=
  if args = [] ∨ args.headD "" = "" then ⟨[msgClassMissing], st, false⟩
  else if class_mapping.contains (args.headD "") then
    ⟨[freshId],
      st ++ [(args.headD "" ++ "." ++ freshId, ⟨args.headD "", freshId, []⟩)],
      true⟩
  else ⟨[msgClassNoExist], st, false⟩

/-- Model of `HBNBCommand.do_create`, console.py lines 73-91. -/
def do_create (freshId : String) (st : Storage) (arg : String) : Option Res :=
  (shlexSplit arg).map (do_create_tokens freshId st)

/-- Model of `HBNBCommand.do_quit`, console.py lines 51-58: exit only when
the argument is blank. -/
def do_quit (st : Storage) (arg : String) : StepRes :=
  if pyStripWs arg = "" then ⟨[], st, false, true⟩
  else ⟨["** Invalid command for quit. Type 'quit' to exit."], st, false, false⟩

/-- Model of `HBNBCommand.do_EOF`, console.py lines 60-65: print an empty
line and stop the loop. -/
def do_EOF (st : Storage) : StepRes := ⟨[""], st, false, true⟩

/-- Help topics: the `do_*` methods in `dir()` order. -/
def helpTopics : List String :=
  ["EOF", "all", "count", "create", "destroy", "help", "quit", "show", "update"]

/-- Docstring text of a command, abbreviated to a one-line summary: no claim
depends on the help text itself. -/
def docOf (v : String) : String := "Help text for " ++ v

/-- Listing printed by bare `help`, console.py lines 264-271. -/
def helpListing : List String :=
  ["", "Documented commands (type help <topic>):",
    "========================================", ""] ++
  helpTopics.map (fun v => v ++ ": " ++ docOf v)

/-- Model of `HBNBCommand.do_help`, console.py lines 236-278. -/
def do_help (st : Storage) (arg : String) : Res :=
  if arg = "" then ⟨helpListing, st, false⟩
  else if helpTopics.contains arg then
    ⟨["Help for " ++ arg ++ ":", docOf arg], st, false⟩
  else ⟨["** No help available for " ++ arg ++ " **"], st, false⟩

/-- Parsing of the argument text of dotted `update`, console.py lines
312-321: split on every comma, take the first three fields, strip quotes
from the id, commas/spaces/quotes from the attribute name, and
spaces/parentheses from the value; `none` models the `IndexError` raised
when fewer than three fields exist (caught by `default`). -/
def defaultUpdateParse (argsText : String) : Option (String × String × String) :=
  match (pySplit argsText commaChar) with
  | a0 :: a1 :: a2 :: _ =>
    some (pyStrip [dquoteChar] (pyStrip [squoteChar] a0),
      pyStrip [dquoteChar]
        (pyStrip [squoteChar] (pyStrip [spaceChar] (pyStrip [commaChar] a1))),
      pyStrip [cparenChar] (pyStrip [spaceChar] a2))
  | _ => none

/-- Model of `HBNBCommand.default`, console.py lines 280-327: split the line
at dots, recognize the five dotted verbs after the first dot, rebuild a
verb-first argument string and re-dispatch; any `IndexError` and any
unrecognized shape yields the unknown-syntax message. -/
def defaultStep (st : Storage) (line : String) : Option Res :=
  match pySplit line dotChar with
  | [] => some ⟨["*** Unknown syntax: " ++ line], st, false⟩
  | [_] => some ⟨["*** Unknown syntax: " ++ line], st, false⟩
  | class_arg :: second :: _ =>
    if (pySplit second oparenChar).headD "" = "all" then do_all st class_arg
    else if (pySplit second oparenChar).headD "" = "count" then
      do_count st class_arg
    else if (pySplit second oparenChar).headD "" = "show" then
      match (pySplit second oparenChar).get? 1 with
      | none => some ⟨["*** Unknown syntax: " ++ line], st, false⟩
      | some p1 =>
        do_show st (class_arg ++ " " ++
          pyStrip [dquoteChar]
            (pyStrip [squoteChar] ((pySplit p1 cparenChar).headD "")))
    else if (pySplit second oparenChar).headD "" = "destroy" then
      match (pySplit second oparenChar).get? 1 with
      | none => some ⟨["*** Unknown syntax: " ++ line], st, false⟩
      | some p1 =>
        do_destroy st (class_arg ++ " " ++
          pyStrip [squoteChar]
            (pyStrip [dquoteChar] ((pySplit p1 cparenChar).headD "")))
    else if (pySplit second oparenChar).headD "" = "update" then
      match (pySplit second oparenChar).get? 1 with
      | none => some ⟨["*** Unknown syntax: " ++ line], st, false⟩
      | some p1 =>
        match defaultUpdateParse p1 with
        | none => some ⟨["*** Unknown syntax: " ++ line], st, false⟩
        | some (id_arg, name_arg, val_arg) =>
          do_update st
            (class_arg ++ " " ++ id_arg ++ " " ++ name_arg ++ " " ++ val_arg)
    else some ⟨["*** Unknown syntax: " ++ line], st, false⟩

/-- Identifier characters of `cmd.Cmd` (`string.ascii_letters + digits +
underscore`), used by `parseline` to cut off the command word. -/
def isIdentChar (c : Char) : Bool :=
  decide (97 ≤ c.toNat ∧ c.toNat ≤ 122) ||
  decide (65 ≤ c.toNat ∧ c.toNat ≤ 90) ||
  decide (48 ≤ c.toNat ∧ c.toNat ≤ 57) ||
  decide (c.toNat = 95)

/-- Command verbs recognized by first-word dispatch: exactly the `do_*`
methods of `HBNBCommand`. -/
def commandVerbs : List String :=
  ["quit", "EOF", "help", "create", "show", "destroy", "all", "update", "count"]

/-- Model of one dispatch step: `cmd.Cmd.onecmd`/`parseline` from the Python
standard library, specialised to `HBNBCommand`.  The line is stripped; an
empty result triggers the `emptyline` override (console.py lines 67-71,
which does nothing — no output, no state change, no repeat of the previous
command, loop continues); a leading question mark rewrites to `help`; a
leading exclamation mark falls through to `default` because `do_shell` does
not exist; otherwise the longest identifier prefix selects a `do_*` handler
and anything unrecognized goes to `default`.  `freshId` feeds the uuid drawn
by `create`. -/
def onecmd (freshId : String) (st : Storage) (raw : String) : Option StepRes :=
  let line := pyStripWs raw
  if line = "" then some ⟨[], st, false, false⟩
  else
    let line :=
      if line.data.headD spaceChar = qmarkChar then
        "help " ++ String.mk line.data.tail
      else line
    if line.data.headD spaceChar = bangChar then (defaultStep st line).map toStep
    else
      let ident := String.mk (line.data.takeWhile isIdentChar)
      let arg := pyStripWs (String.mk (line.data.dropWhile isIdentChar))
      if ident = "" then (defaultStep st line).map toStep
      else if ident = "quit" then some (do_quit st arg)
      else if ident = "EOF" then some (do_EOF st)
      else if ident = "help" then some (toStep (do_help st arg))
      else if ident = "create" then (do_create freshId st arg).map toStep
      else if ident = "show" then (do_show st arg).map toStep
      else if ident = "destroy" then (do_destroy st arg).map toStep
      else if ident = "all" then (do_all st arg).map toStep
      else if ident = "update" then (do_update st arg).map toStep
      else if ident = "count" then (do_count st arg).map toStep
      else (defaultStep st line).map toStep

/-- Characters with no delimiter meaning anywhere in the interpreter: not
whitespace, not a quote, and none of dot, parentheses, comma. -/
def plainChar (c : Char) : Bool :=
  c ∉ ([spaceChar, tabChar, nlChar, crChar, Char.ofNat 11, Char.ofNat 12,
    squoteChar, dquoteChar, dotChar, oparenChar, cparenChar,
    commaChar] : List Char)

/-- Plain token: nonempty and made only of plain characters — the shape of
every class name, uuid, attribute name and simple value. -/
def plainTok (s : String) : Prop :=
  s.data ≠ [] ∧ ∀ c ∈ s.data, plainChar c = true

instance (s : String) : Decidable (plainTok s) := by
  unfold plainTok
  infer_instance

/-- Invariant of the object mapping stated by the spec data model: every
key is `ClassName.id` for its value's runtime class and id, the class is
recognized, and ids (uuids) contain no dot. -/
def wfStorage (st : Storage) : Bool :=
  st.all (fun p =>
    class_mapping.contains p.2.cls &&
    p.2.id.data.all (fun c => ¬ c = dotChar) &&
    p.1 == p.2.cls ++ "." ++ p.2.id)

/-- Modelled from the spec: the five verbs recognized in dotted notation. -/
def dottedVerbs : List String := ["all", "count", "show", "destroy", "update"]

/-- Modelled from the spec: a line is a recognized verb-first command when
its first whitespace-delimited word is one of the command verbs. -/
def specVerbFirst (line : String) : Bool :=
  commandVerbs.contains
    (String.mk ((pyStripWs line).data.takeWhile (fun c => ¬ c ∈ wsChars)))

/-- Modelled from the spec: a line matches the dotted form
`ClassName.verb(args)` when the text before the first dot is a recognized
class name, the text between that dot and the first following opening
parenthesis is a recognized dotted verb, and the line closes with a
closing parenthesis. -/
def specDottedForm (line : String) : Bool :=
  match (pyStripWs line).data.dropWhile (fun c => ¬ c = dotChar) with
  | [] => false
  | _ :: afterDot =>
    match afterDot.dropWhile (fun c => ¬ c = oparenChar) with
    | [] => false
    | _ :: afterParen =>
      class_mapping.contains
        (String.mk ((pyStripWs line).data.takeWhile (fun c => ¬ c = dotChar))) &&
      dottedVerbs.contains
        (String.mk (afterDot.takeWhile (fun c => ¬ c = oparenChar))) &&
      (match afterParen.getLast? with
       | none => false
       | some lastc => lastc = cparenChar)

/-! Helper lemmas about the Python string primitives. -/

theorem splitOnCharL_ne_nil (sep : Char) (l : List Char) :
    splitOnCharL sep l ≠ [] := by
  induction l with
  | nil => simp [splitOnCharL]
  | cons c rest ih =>
    rw [splitOnCharL]
    by_cases h : c = sep
    · simp [h]
    · rw [if_neg h]
      cases hr : splitOnCharL sep rest with
      | nil => simp
      | cons r rs => simp

theorem splitOnCharL_of_not_mem (sep : Char) (l : List Char) (h : sep ∉ l) :
    splitOnCharL sep l = [l] := by
  induction l with
  | nil => rfl
  | cons c rest ih =>
    rw [splitOnCharL, if_neg (by intro hc; exact h (hc ▸ List.mem_cons_self c rest)),
      ih (fun hm => h (List.mem_cons_of_mem c hm))]

theorem splitOnCharL_append (sep : Char) (xs ys : List Char) (h : sep ∉ xs) :
    splitOnCharL sep (xs ++ sep :: ys) = xs :: splitOnCharL sep ys := by
  induction xs with
  | nil => simp [splitOnCharL]
  | cons c rest ih =>
    have hc : ¬ c = sep := fun hc => h (hc ▸ List.mem_cons_self c rest)
    rw [List.cons_append, splitOnCharL, if_neg hc,
      ih (fun hm => h (List.mem_cons_of_mem c hm))]

theorem dropWhile_eq_self_of_head (p : Char → Bool) (l : List Char)
    (h : ∀ c ∈ l.head?, p c = false) : l.dropWhile p = l := by
  cases l with
  | nil => rfl
  | cons c rest =>
    exact List.dropWhile_cons_of_neg (by simp [h c (by simp)])

theorem dropWhile_eq_self_of_all (p : Char → Bool) (l : List Char)
    (h : ∀ c ∈ l, p c = false) : l.dropWhile p = l := by
  cases l with
  | nil => rfl
  | cons c rest =>
    exact List.dropWhile_cons_of_neg (by simp [h c (by simp)])

theorem pyStripL_eq_self (chars : List Char) (l : List Char)
    (h1 : ∀ c ∈ l.head?, c ∉ chars) (h2 : ∀ c ∈ l.getLast?, c ∉ chars) :
    pyStripL chars l = l := by
  unfold pyStripL
  have e1 : l.dropWhile (fun c => decide (c ∈ chars)) = l :=
    dropWhile_eq_self_of_head _ _
      (fun c hc => decide_eq_false (h1 c hc))
  rw [e1]
  have e2 : l.reverse.dropWhile (fun c => decide (c ∈ chars)) = l.reverse :=
    dropWhile_eq_self_of_head _ _ (by
      intro c hc
      rw [List.head?_reverse] at hc
      exact decide_eq_false (h2 c hc))
  rw [e2, List.reverse_reverse]

theorem pyStripL_eq_self_of_all (chars : List Char) (l : List Char)
    (h : ∀ c ∈ l, c ∉ chars) : pyStripL chars l = l :=
  pyStripL_eq_self chars l
    (fun c hc => h c (by cases l <;> simp_all))
    (fun c hc => h c (List.mem_of_mem_getLast? hc))

theorem pyStripL_quoted (q : Char) (xs : List Char) (h : ∀ c ∈ xs, ¬ c = q) :
    pyStripL [q] (q :: (xs ++ [q])) = xs := by
  unfold pyStripL
  rw [List.dropWhile_cons_of_pos (by simp)]
  cases xs with
  | nil => simp [List.dropWhile]
  | cons x rest =>
    rw [List.cons_append,
      List.dropWhile_cons_of_neg (by simp [h x (by simp)])]
    have hrev : (x :: (rest ++ [q])).reverse = q :: (rest.reverse ++ [x]) := by
      simp
    rw [hrev, List.dropWhile_cons_of_pos (by simp),
      dropWhile_eq_self_of_all _ _ (by
        intro c hc
        have hm : c ∈ x :: rest := by
          rcases List.mem_append.mp hc with h1 | h1
          · exact List.mem_cons_of_mem x (List.mem_reverse.mp h1)
          · simp only [List.mem_singleton] at h1
            simp [h1]
        exact decide_eq_false (by simp [h c hm]))]
    simp

/-! Helper lemmas about the shlex state machine. -/

theorem plainChar_iff (c : Char) : plainChar c = true ↔
    ¬ c = spaceChar ∧ ¬ c = tabChar ∧ ¬ c = nlChar ∧ ¬ c = crChar ∧
    ¬ c = Char.ofNat 11 ∧ ¬ c = Char.ofNat 12 ∧ ¬ c = squoteChar ∧
    ¬ c = dquoteChar ∧ ¬ c = dotChar ∧ ¬ c = oparenChar ∧
    ¬ c = cparenChar ∧ ¬ c = commaChar := by
  simp [plainChar]

theorem shAux_plain_cons (c : Char) (cs : List Char) (cur : Option (List Char))
    (acc : List (List Char)) (h : plainChar c = true) :
    shAux (c :: cs) cur none acc =
      shAux cs (some (cur.getD [] ++ [c])) none acc := by
  obtain ⟨h1, h2, h3, h4, _, _, h7, h8, _⟩ := (plainChar_iff c).mp h
  rw [shAux.eq_def]
  dsimp only
  rw [if_neg (by tauto), if_neg (by tauto)]

theorem shAux_plain_run (t : List Char) (cs : List Char) (u : List Char)
    (acc : List (List Char)) (h : ∀ c ∈ t, plainChar c = true) :
    shAux (t ++ cs) (some u) none acc = shAux cs (some (u ++ t)) none acc := by
  induction t generalizing u with
  | nil => simp
  | cons c rest ih =>
    rw [List.cons_append, shAux_plain_cons c _ _ _ (h c (by simp))]
    simpa using ih (u ++ [c]) (fun c hc => h c (by simp [hc]))

theorem shAux_plain_start (t : List Char) (cs : List Char)
    (acc : List (List Char)) (hne : t ≠ []) (h : ∀ c ∈ t, plainChar c = true) :
    shAux (t ++ cs) none none acc = shAux cs (some t) none acc := by
  cases t with
  | nil => exact absurd rfl hne
  | cons c rest =>
    rw [List.cons_append, shAux_plain_cons c _ _ _ (h c (by simp))]
    simpa using shAux_plain_run rest cs [c] acc (fun c hc => h c (by simp [hc]))

theorem shAux_space (cs : List Char) (u : List Char) (acc : List (List Char)) :
    shAux (spaceChar :: cs) (some u) none acc = shAux cs none none (u :: acc) := by
  rw [shAux.eq_def]
  dsimp only
  rw [if_pos (Or.inl rfl)]

theorem shAux_open_dquote (cs : List Char) (cur : Option (List Char))
    (acc : List (List Char)) :
    shAux (dquoteChar :: cs) cur none acc =
      shAux cs (some (cur.getD [])) (some dquoteChar) acc := by
  rw [shAux.eq_def]
  dsimp only
  rw [if_neg (by simp [dquoteChar, spaceChar, tabChar, crChar, nlChar]),
    if_pos (Or.inl rfl)]

theorem shAux_inq_run (q : Char) (t : List Char) (cs : List Char)
    (u : List Char) (acc : List (List Char)) (h : ∀ c ∈ t, ¬ c = q) :
    shAux (t ++ cs) (some u) (some q) acc =
      shAux cs (some (u ++ t)) (some q) acc := by
  induction t generalizing u with
  | nil => simp
  | cons c rest ih =>
    rw [List.cons_append, shAux.eq_def]
    dsimp only
    rw [if_neg (h c (by simp))]
    simpa using ih (u ++ [c]) (fun c hc => h c (by simp [hc]))

theorem shAux_close_quote (q : Char) (cs : List Char) (cur : Option (List Char))
    (acc : List (List Char)) :
    shAux (q :: cs) cur (some q) acc = shAux cs (some (cur.getD [])) none acc := by
  rw [shAux.eq_def]
  dsimp only
  rw [if_pos rfl]

theorem shAux_nil_token (u : List Char) (acc : List (List Char)) :
    shAux [] (some u) none acc = some (u :: acc).reverse := rfl

theorem shAux_nil_none (acc : List (List Char)) :
    shAux [] none none acc = some acc.reverse := rfl

theorem space_data : (" " : String).data = [spaceChar] := by decide

theorem shlexSplit_one (t : String) (h : plainTok t) :
    shlexSplit t = some [t] := by
  unfold shlexSplit
  rw [show t.data = t.data ++ [] by simp,
    shAux_plain_start t.data [] [] h.1 h.2, shAux_nil_token]
  rfl

theorem shlexSplit_two (t1 t2 : String) (h1 : plainTok t1) (h2 : plainTok t2) :
    shlexSplit (t1 ++ " " ++ t2) = some [t1, t2] := by
  unfold shlexSplit
  have hd : (t1 ++ " " ++ t2).data = t1.data ++ (spaceChar :: (t2.data ++ [])) := by
    rw [String.data_append, String.data_append, space_data]
    simp
  rw [hd, shAux_plain_start t1.data _ _ h1.1 h1.2, shAux_space,
    shAux_plain_start t2.data [] _ h2.1 h2.2, shAux_nil_token]
  rfl

theorem space_append_data (s t : String) :
    (s ++ " " ++ t).data = s.data ++ (spaceChar :: t.data) := by
  rw [String.data_append, String.data_append, space_data]
  simp

theorem shlexSplit_four (t1 t2 t3 t4 : String) (h1 : plainTok t1)
    (h2 : plainTok t2) (h3 : plainTok t3) (h4 : plainTok t4) :
    shlexSplit (t1 ++ " " ++ t2 ++ " " ++ t3 ++ " " ++ t4) =
      some [t1, t2, t3, t4] := by
  unfold shlexSplit
  have hd : (t1 ++ " " ++ t2 ++ " " ++ t3 ++ " " ++ t4).data =
      t1.data ++ (spaceChar ::
        (t2.data ++ (spaceChar :: (t3.data ++ (spaceChar :: (t4.data ++ [])))))) := by
    rw [space_append_data, space_append_data, space_append_data]
    simp
  rw [hd, shAux_plain_start t1.data _ _ h1.1 h1.2, shAux_space,
    shAux_plain_start t2.data _ _ h2.1 h2.2, shAux_space,
    shAux_plain_start t3.data _ _ h3.1 h3.2, shAux_space,
    shAux_plain_start t4.data [] _ h4.1 h4.2, shAux_nil_token]
  rfl

theorem plain_ne_dquote (t : String) (h : ∀ c ∈ t.data, plainChar c = true) :
    ∀ c ∈ t.data, ¬ c = dquoteChar :=
  fun c hc => ((plainChar_iff c).mp (h c hc)).2.2.2.2.2.2.2.1

theorem shlexSplit_four_qlast (t1 t2 t3 t4 : String) (h1 : plainTok t1)
    (h2 : plainTok t2) (h3 : plainTok t3)
    (h4 : ∀ c ∈ t4.data, plainChar c = true) :
    shlexSplit (t1 ++ " " ++ t2 ++ " " ++ t3 ++ " " ++
      (dquoteStr ++ t4 ++ dquoteStr)) = some [t1, t2, t3, t4] := by
  unfold shlexSplit
  have hdq : dquoteStr.data = [dquoteChar] := rfl
  have hd : (t1 ++ " " ++ t2 ++ " " ++ t3 ++ " " ++
      (dquoteStr ++ t4 ++ dquoteStr)).data =
      t1.data ++ (spaceChar :: (t2.data ++ (spaceChar :: (t3.data ++
        (spaceChar :: (dquoteChar :: (t4.data ++ (dquoteChar :: [])))))))) := by
    rw [space_append_data, space_append_data, space_append_data,
      String.data_append, String.data_append, hdq]
    simp
  rw [hd, shAux_plain_start t1.data _ _ h1.1 h1.2, shAux_space,
    shAux_plain_start t2.data _ _ h2.1 h2.2, shAux_space,
    shAux_plain_start t3.data _ _ h3.1 h3.2, shAux_space,
    shAux_open_dquote]
  simp only [Option.getD_none]
  rw [shAux_inq_run dquoteChar t4.data (dquoteChar :: []) [] _
      (plain_ne_dquote t4 h4),
    shAux_close_quote]
  simp only [Option.getD_some, List.nil_append]
  rw [shAux_nil_token]
  rfl

/-! Key-shape lemmas used to reason about `ClassName.id` lookups. -/

theorem eq_of_append_dot (a b x y : List Char) (ha : dotChar ∉ a)
    (hb : dotChar ∉ b) (h : a ++ dotChar :: x = b ++ dotChar :: y) :
    a = b ∧ x = y := by
  induction a generalizing b with
  | nil =>
    cases b with
    | nil => simpa using h
    | cons bh bt =>
      exfalso
      simp only [List.nil_append, List.cons_append, List.cons.injEq] at h
      exact hb (h.1 ▸ List.mem_cons_self bh bt)
  | cons ah at' ih =>
    cases b with
    | nil =>
      exfalso
      simp only [List.nil_append, List.cons_append, List.cons.injEq] at h
      exact ha (h.1.symm ▸ List.mem_cons_self ah at')
    | cons bh bt =>
      simp only [List.cons_append, List.cons.injEq] at h
      obtain ⟨hhead, htail⟩ := h
      obtain ⟨e1, e2⟩ := ih bt (fun hm => ha (List.mem_cons_of_mem ah hm))
        (fun hm => hb (List.mem_cons_of_mem bh hm)) htail
      exact ⟨by rw [hhead, e1], e2⟩

theorem lookupStr_eq_none (st : Storage) (key : String)
    (h : ∀ p ∈ st, ¬ p.1 = key) : lookupStr st key = none := by
  induction st with
  | nil => rfl
  | cons p rest ih =>
    rw [lookupStr, if_neg (h p (by simp))]
    exact ih (fun q hq => h q (List.mem_cons_of_mem p hq))

theorem class_mapping_no_dot :
    ∀ C ∈ class_mapping, dotChar ∉ C.data := by decide

theorem dot_data : ("." : String).data = [dotChar] := by decide

theorem dot_append_data (s t : String) :
    (s ++ "." ++ t).data = s.data ++ (dotChar :: t.data) := by
  rw [String.data_append, String.data_append, dot_data]
  simp

theorem unrecognized_key_absent (st : Storage) (name idArg : String)
    (hwf : wfStorage st = true) (hname : ¬ class_mapping.contains name = true) :
    lookupStr st (name ++ "." ++ idArg) = none := by
  apply lookupStr_eq_none
  intro p hp heq
  have hprop := (List.all_eq_true.mp hwf) p hp
  simp only [Bool.and_eq_true, beq_iff_eq] at hprop
  obtain ⟨⟨hcls, hid⟩, hkey⟩ := hprop
  have hdata : name.data ++ dotChar :: idArg.data =
      p.2.cls.data ++ dotChar :: p.2.id.data := by
    rw [← dot_append_data, ← dot_append_data, ← heq, hkey]
  have hclsnd : dotChar ∉ p.2.cls.data :=
    class_mapping_no_dot p.2.cls (by
      simpa using hcls)
  have hcount := congrArg (fun l => l.count dotChar) hdata
  simp only [List.count_append, List.count_cons_self] at hcount
  have hidnd : dotChar ∉ p.2.id.data := by
    intro hm
    have := List.all_eq_true.mp hid dotChar hm
    simp at this
  have hid0 : p.2.id.data.count dotChar = 0 := List.count_eq_zero.mpr hidnd
  have hcls0 : p.2.cls.data.count dotChar = 0 := List.count_eq_zero.mpr hclsnd
  rw [hid0, hcls0] at hcount
  have hn0 : name.data.count dotChar = 0 := by omega
  have hnamend : dotChar ∉ name.data := List.count_eq_zero.mp hn0
  obtain ⟨e, _⟩ := eq_of_append_dot name.data p.2.cls.data idArg.data
    p.2.id.data hnamend hclsnd hdata
  apply hname
  have : name = p.2.cls := by
    apply String.ext
    exact e
  rw [this]
  simpa using hcls


/-! Helper lemmas for the claim theorems. -/

theorem not_emptyish {args : List String} (hne : args.headD "" ≠ "") :
    ¬ (args = [] ∨ args.headD "" = "") := by
  rintro (rfl | h) <;> simp_all

theorem destroy_tokens_cases (st : Storage) (args : List String) :
    (∃ msg, do_destroy_tokens st args = ⟨[msg], st, false⟩) ∨
    (do_destroy_tokens st args).out = [] := by
  unfold do_destroy_tokens
  by_cases h1 : args = [] ∨ args.headD "" = ""
  · rw [if_pos h1]
    exact Or.inl ⟨msgClassMissing, rfl⟩
  · rw [if_neg h1]
    by_cases h2 : args.length < 2
    · rw [if_pos h2]
      exact Or.inl ⟨msgIdMissing, rfl⟩
    · rw [if_neg h2]
      cases hm : lookupStr st (args.headD "" ++ "." ++ args.getD 1 "") with
      | none => exact Or.inl ⟨msgNoInstance, rfl⟩
      | some o => exact Or.inr rfl

theorem destroy_tokens_error (st : Storage) (args : List String)
    (h : (do_destroy_tokens st args).out ≠ []) :
    (do_destroy_tokens st args).st = st ∧
      (do_destroy_tokens st args).saved = false := by
  rcases destroy_tokens_cases st args with ⟨msg, heq⟩ | hout
  · rw [heq]
    exact ⟨rfl, rfl⟩
  · exact absurd hout h

theorem update_tokens_cases (st : Storage) (args : List String) :
    (∃ msg, do_update_tokens st args = ⟨[msg], st, false⟩) ∨
    (do_update_tokens st args).out = [] := by
  unfold do_update_tokens
  by_cases h1 : args = [] ∨ args.headD "" = ""
  · rw [if_pos h1]
    exact Or.inl ⟨msgClassMissing, rfl⟩
  · rw [if_neg h1]
    by_cases h2 : args.length < 2
    · rw [if_pos h2]
      exact Or.inl ⟨msgIdMissing, rfl⟩
    · rw [if_neg h2]
      cases hm : lookupStr st (args.headD "" ++ "." ++ args.getD 1 "") with
      | none => exact Or.inl ⟨msgNoInstance, rfl⟩
      | some o =>
        by_cases h3 : args.length < 3
        · rw [if_pos h3]
          exact Or.inl ⟨msgAttrMissing, rfl⟩
        · rw [if_neg h3]
          by_cases h4 : args.length < 4
          · rw [if_pos h4]
            exact Or.inl ⟨msgValueMissing, rfl⟩
          · rw [if_neg h4]
            exact Or.inr rfl

theorem update_tokens_error (st : Storage) (args : List String)
    (h : (do_update_tokens st args).out ≠ []) :
    (do_update_tokens st args).st = st ∧
      (do_update_tokens st args).saved = false := by
  rcases update_tokens_cases st args with ⟨msg, heq⟩ | hout
  · rw [heq]
    exact ⟨rfl, rfl⟩
  · exact absurd hout h

/-! Claim theorems. -/

/-- C10: an empty input line is a no-op — the `emptyline` override prints
nothing, repeats nothing, leaves the object mapping unchanged and does not
stop the read-eval loop. -/
theorem c10_emptyline (freshId : String) (st : Storage) (raw : String)
    (h : pyStripWs raw = "") :
    onecmd freshId st raw = some ⟨[], st, false, false⟩ := by
  simp [onecmd, h]

/-- Witness for C10 at the concrete input of a line of blanks. -/
theorem c10_witness : onecmd "f" [] "  " = some ⟨[], [], false, false⟩ :=
  c10_emptyline "f" [] "  " (by decide)

/-- C9: every error path of `destroy` and `update` (each one prints a
message, while success prints nothing) returns before any mutation: the
object mapping is unchanged and the store is not persisted. -/
theorem c9_error_atomic (st : Storage) (arg : String) (r : Res) :
    (do_destroy st arg = some r → r.out ≠ [] → r.st = st ∧ r.saved = false) ∧
    (do_update st arg = some r → r.out ≠ [] → r.st = st ∧ r.saved = false) := by
  constructor
  · intro hd hout
    cases hs : shlexSplit arg with
    | none => rw [do_destroy, hs] at hd; exact absurd hd (by simp)
    | some args =>
      rw [do_destroy, hs, Option.map_some'] at hd
      have := destroy_tokens_error st args (by rw [← Option.some_inj.mp hd] at hout; exact hout)
      rw [← Option.some_inj.mp hd]
      exact this
  · intro hd hout
    cases hs : shlexSplit arg with
    | none => rw [do_update, hs] at hd; exact absurd hd (by simp)
    | some args =>
      rw [do_update, hs, Option.map_some'] at hd
      have := update_tokens_error st args (by rw [← Option.some_inj.mp hd] at hout; exact hout)
      rw [← Option.some_inj.mp hd]
      exact this

/-- Witness for C9 at a concrete erroring input: `destroy` with no
arguments errors and leaves the (empty) mapping untouched. -/
theorem c9_witness :
    do_destroy [] "" = some ⟨[msgClassMissing], [], false⟩ ∧
    (Res.mk [msgClassMissing] [] false).st = ([] : Storage) ∧
    (Res.mk [msgClassMissing] [] false).saved = false := by
  refine ⟨by decide, ?_, ?_⟩
  · exact ((c9_error_atomic [] "" ⟨[msgClassMissing], [], false⟩).1
      (by decide) (by decide)).1
  · exact ((c9_error_atomic [] "" ⟨[msgClassMissing], [], false⟩).1
      (by decide) (by decide)).2

theorem pyListRepr_head (l : List String) :
    (pyListRepr l).data.head? = ("[" : String).data.head? := by
  unfold pyListRepr
  rw [String.data_append, String.data_append]
  cases hx : ("[" : String).data with
  | nil => exact absurd hx (by decide)
  | cons c cs => simp

theorem pyListRepr_ne_msg (l : List String) : pyListRepr l ≠ msgClassNoExist := by
  intro h
  have h1 := pyListRepr_head l
  rw [h] at h1
  exact absurd h1 (by decide)

/-- C4: `all <name>` collects the string forms of exactly the live objects
whose runtime class name equals `<name>`, and prints the
unrecognized-class error precisely when that collection is empty —
whether or not `<name>` is a recognized class name. -/
theorem c4_all_filter (st : Storage) (arg : String) (args : List String)
    (h : shlexSplit arg = some args) (hne : args.headD "" ≠ "") :
    (((vals st).filter (fun o => o.cls == args.headD "")).map objStr ≠ [] →
      do_all st arg = some
        ⟨[pyListRepr (((vals st).filter (fun o => o.cls == args.headD "")).map objStr)],
          st, false⟩) ∧
    (do_all st arg = some ⟨[msgClassNoExist], st, false⟩ ↔
      ((vals st).filter (fun o => o.cls == args.headD "")).map objStr = []) := by
  have hmain : do_all st arg = some (do_all_tokens st args) := by
    rw [do_all, h, Option.map_some']
  constructor
  · intro hl
    rw [hmain]
    unfold do_all_tokens
    rw [if_neg (not_emptyish hne), if_neg hl]
  · constructor
    · intro heq
      by_contra hl
      rw [hmain] at heq
      unfold do_all_tokens at heq
      rw [if_neg (not_emptyish hne), if_neg hl] at heq
      have hout : [pyListRepr (((vals st).filter
            (fun o => o.cls == args.headD "")).map objStr)] = [msgClassNoExist] :=
        congrArg Res.out (Option.some_inj.mp heq)
      injection hout with hs _
      exact pyListRepr_ne_msg _ hs
    · intro hl
      rw [hmain]
      unfold do_all_tokens
      rw [if_neg (not_emptyish hne), if_pos hl]

/-- Witness for C4: `all User` on a one-User mapping lists it, and on an
empty mapping the error branch of the equivalence fires. -/
theorem c4_witness :
    do_all [("User.u1", ⟨"User", "u1", []⟩)] "User" = some
      ⟨[pyListRepr [objStr ⟨"User", "u1", []⟩]], [("User.u1", ⟨"User", "u1", []⟩)],
        false⟩ :=
  (c4_all_filter [("User.u1", ⟨"User", "u1", []⟩)] "User" ["User"]
    (by decide) (by decide)).1 (by decide)

/-- C3: the error checks of `show` and `update` happen in a fixed order:
class-name-missing before id-missing, id-missing before the not-found
lookup, and for `update` the not-found lookup before the attribute-name and
value checks; in particular `show` with an empty argument prints the
class-name-missing message. -/
theorem c3_error_order :
    (∀ (st : Storage) (arg : String) (args : List String),
      shlexSplit arg = some args → (args = [] ∨ args.headD "" = "") →
      do_show st arg = some ⟨[msgClassMissing], st, false⟩) ∧
    (∀ (st : Storage) (arg : String) (args : List String),
      shlexSplit arg = some args → args.headD "" ≠ "" → args.length < 2 →
      do_show st arg = some ⟨[msgIdMissing], st, false⟩) ∧
    (∀ (st : Storage) (arg : String) (args : List String),
      shlexSplit arg = some args → args.headD "" ≠ "" → 2 ≤ args.length →
      class_mapping.contains (args.headD "") = true →
      (vals st).filter
        (fun o => isinstance o (args.headD "") && o.id == args.getD 1 "") = [] →
      do_show st arg = some ⟨[msgNoInstance], st, false⟩) ∧
    (∀ st : Storage, do_show st "" = some ⟨[msgClassMissing], st, false⟩) ∧
    (∀ (st : Storage) (arg : String) (args : List String),
      shlexSplit arg = some args → (args = [] ∨ args.headD "" = "") →
      do_update st arg = some ⟨[msgClassMissing], st, false⟩) ∧
    (∀ (st : Storage) (arg : String) (args : List String),
      shlexSplit arg = some args → args.headD "" ≠ "" → args.length < 2 →
      do_update st arg = some ⟨[msgIdMissing], st, false⟩) ∧
    (∀ (st : Storage) (arg : String) (args : List String),
      shlexSplit arg = some args → args.headD "" ≠ "" → 2 ≤ args.length →
      lookupStr st (args.headD "" ++ "." ++ args.getD 1 "") = none →
      do_update st arg = some ⟨[msgNoInstance], st, false⟩) ∧
    (∀ (st : Storage) (arg : String) (args : List String) (o : Obj),
      shlexSplit arg = some args → args.headD "" ≠ "" → 2 ≤ args.length →
      lookupStr st (args.headD "" ++ "." ++ args.getD 1 "") = some o →
      args.length < 3 →
      do_update st arg = some ⟨[msgAttrMissing], st, false⟩) ∧
    (∀ (st : Storage) (arg : String) (args : List String) (o : Obj),
      shlexSplit arg = some args → args.headD "" ≠ "" →
      lookupStr st (args.headD "" ++ "." ++ args.getD 1 "") = some o →
      args.length = 3 →
      do_update st arg = some ⟨[msgValueMissing], st, false⟩) := by
  refine ⟨?_, ?_, ?_, ?_, ?_, ?_, ?_, ?_, ?_⟩
  · intro st arg args h h0
    rw [do_show, h, Option.map_some']
    unfold do_show_tokens
    rw [if_pos h0]
  · intro st arg args h hne hlt
    rw [do_show, h, Option.map_some']
    unfold do_show_tokens
    rw [if_neg (not_emptyish hne), if_pos hlt]
  · intro st arg args h hne hge hcon hfil
    rw [do_show, h, Option.map_some']
    unfold do_show_tokens
    rw [if_neg (not_emptyish hne), if_neg (by omega), if_pos hcon, hfil]
  · intro st
    rw [show ("" : String) = "" from rfl, do_show]
    rw [show shlexSplit "" = some [] from rfl, Option.map_some']
    unfold do_show_tokens
    rw [if_pos (Or.inl rfl)]
  · intro st arg args h h0
    rw [do_update, h, Option.map_some']
    unfold do_update_tokens
    rw [if_pos h0]
  · intro st arg args h hne hlt
    rw [do_update, h, Option.map_some']
    unfold do_update_tokens
    rw [if_neg (not_emptyish hne), if_pos hlt]
  · intro st arg args h hne hge hm
    rw [do_update, h, Option.map_some']
    unfold do_update_tokens
    rw [if_neg (not_emptyish hne), if_neg (by omega), hm]
  · intro st arg args o h hne hge hm h3
    rw [do_update, h, Option.map_some']
    unfold do_update_tokens
    rw [if_neg (not_emptyish hne), if_neg (by omega), hm]
    simp only []
    rw [if_pos h3]
  · intro st arg args o h hne hm h3
    rw [do_update, h, Option.map_some']
    unfold do_update_tokens
    rw [if_neg (not_emptyish hne), if_neg (by omega), hm]
    simp only []
    rw [if_neg (by omega), if_pos (by omega)]

/-- Witness for C3: `show` with no arguments at all prints the
class-name-missing message, never the id-missing message. -/
theorem c3_witness :
    do_show [] "" = some ⟨[msgClassMissing], [], false⟩ ∧
    msgClassMissing ≠ msgIdMissing :=
  ⟨c3_error_order.2.2.2.1 [], by decide⟩



theorem filter_head_unique {p : Obj → Bool} {l : List Obj} {u : Obj}
    (hmem : u ∈ l) (hp : p u = true) (huniq : ∀ o ∈ l, p o = true → o = u) :
    ∃ t, l.filter p = u :: t := by
  cases hf : l.filter p with
  | nil =>
    exfalso
    have hmf : u ∈ l.filter p := List.mem_filter.mpr ⟨hmem, hp⟩
    rw [hf] at hmf
    simp at hmf
  | cons h t =>
    have hh : h ∈ l.filter p := by
      rw [hf]
      simp
    obtain ⟨hl, hph⟩ := List.mem_filter.mp hh
    exact ⟨t, by rw [huniq h hl hph]⟩

/-- C1 counterexample: `destroy` with the unrecognized class name `Foo`
and an id prints the not-found message, not the unrecognized-class error,
so it does not follow the error precedence of `show`. -/
theorem c1_counterexample :
    class_mapping.contains "Foo" = false ∧
    do_destroy [] "Foo x" = some ⟨[msgNoInstance], [], false⟩ ∧
    msgNoInstance ≠ msgClassNoExist := by
  refine ⟨by decide, by decide, by decide⟩

/-- C1 (amended): `destroy` never consults the class registry at all; on a
well-formed mapping, `destroy <name> <id>` with an unrecognized `<name>`
falls through to the key lookup, which fails, and prints the not-found
message — the unrecognized-class error is never printed by `destroy`. -/
theorem c1_destroy_unrecognized_not_found (st : Storage) (arg : String)
    (name idTok : String) (rest : List String)
    (h : shlexSplit arg = some (name :: idTok :: rest))
    (hname : ¬ class_mapping.contains name = true) (hne : name ≠ "")
    (hwf : wfStorage st = true) :
    do_destroy st arg = some ⟨[msgNoInstance], st, false⟩ := by
  rw [do_destroy, h, Option.map_some']
  unfold do_destroy_tokens
  rw [if_neg (by
      rintro (hc | hc)
      · exact List.cons_ne_nil _ _ hc
      · exact hne hc),
    if_neg (by simp)]
  have hk2 : lookupStr st ((name :: idTok :: rest).headD "" ++ "." ++
      (name :: idTok :: rest).getD 1 "") = none :=
    unrecognized_key_absent st name idTok hwf hname
  rw [hk2]

/-- Witness for C1 at a concrete well-formed mapping holding one User. -/
theorem c1_witness :
    do_destroy [("User.u1", ⟨"User", "u1", []⟩)] "Foo x" =
      some ⟨[msgNoInstance], [("User.u1", ⟨"User", "u1", []⟩)], false⟩ :=
  c1_destroy_unrecognized_not_found [("User.u1", ⟨"User", "u1", []⟩)] "Foo x"
    "Foo" "x" [] (by decide) (by decide) (by decide) (by decide)

/-- C6: `count C` checks class-name-missing, then the registry, then prints
the number of live objects accepted by a polymorphic `isinstance` check —
and `isinstance` against `BaseModel` accepts every object of a recognized
class, so subclass instances are included. -/
theorem c6_count :
    (∀ (st : Storage) (arg : String) (args : List String),
      shlexSplit arg = some args → (args = [] ∨ args.headD "" = "") →
      do_count st arg = some ⟨[msgClassMissing], st, false⟩) ∧
    (∀ (st : Storage) (arg : String) (args : List String),
      shlexSplit arg = some args → args.headD "" ≠ "" →
      ¬ class_mapping.contains (args.headD "") = true →
      do_count st arg = some ⟨[msgClassNoExist], st, false⟩) ∧
    (∀ (st : Storage) (arg : String) (args : List String),
      shlexSplit arg = some args → args.headD "" ≠ "" →
      class_mapping.contains (args.headD "") = true →
      do_count st arg = some
        ⟨[toString ((vals st).filter
            (fun o => isinstance o (args.headD ""))).length], st, false⟩) ∧
    (∀ o : Obj, class_mapping.contains o.cls = true →
      isinstance o "BaseModel" = true) := by
  refine ⟨?_, ?_, ?_, ?_⟩
  · intro st arg args h h0
    rw [do_count, h, Option.map_some']
    unfold do_count_tokens
    rw [if_pos h0]
  · intro st arg args h hne hcon
    rw [do_count, h, Option.map_some']
    unfold do_count_tokens
    rw [if_neg (not_emptyish hne), if_neg hcon]
  · intro st arg args h hne hcon
    rw [do_count, h, Option.map_some']
    unfold do_count_tokens
    rw [if_neg (not_emptyish hne), if_pos hcon]
  · intro o h
    have hm : o.cls ∈ class_mapping := by simpa using h
    simp [isinstance, hm]

/-- Witness for C6: a mapping holding one User and one Place has
`count BaseModel` equal to 2 — both subclass instances are counted. -/
theorem c6_witness :
    do_count [("User.u1", ⟨"User", "u1", []⟩), ("Place.p1", ⟨"Place", "p1", []⟩)]
        "BaseModel" =
      some ⟨["2"],
        [("User.u1", ⟨"User", "u1", []⟩), ("Place.p1", ⟨"Place", "p1", []⟩)],
        false⟩ :=
  c6_count.2.2.1
    [("User.u1", ⟨"User", "u1", []⟩), ("Place.p1", ⟨"Place", "p1", []⟩)]
    "BaseModel" ["BaseModel"] (by decide) (by decide) (by decide)

/-- C8: `show` finds its target by a polymorphic isinstance scan while
`destroy` and `update` look up the exact key `ClassName.id`; for a User
object, `show BaseModel <id>` prints it while `destroy BaseModel <id>` and
`update BaseModel <id> attr val` print the not-found message. -/
theorem c8_show_poly_destroy_key (st : Storage) (u : Obj) (i : String)
    (hmem : ("User." ++ i, u) ∈ st) (hcls : u.cls = "User") (hid : u.id = i)
    (htok : plainTok i)
    (huniq : ∀ o ∈ vals st, o.id = i → o = u)
    (hkey : lookupStr st ("BaseModel." ++ i) = none) :
    do_show st ("BaseModel" ++ " " ++ i) = some ⟨[objStr u], st, false⟩ ∧
    do_destroy st ("BaseModel" ++ " " ++ i) =
      some ⟨[msgNoInstance], st, false⟩ ∧
    do_update st ("BaseModel" ++ " " ++ i ++ " " ++ "attr" ++ " " ++ "val") =
      some ⟨[msgNoInstance], st, false⟩ := by
  have hBM : plainTok ("BaseModel" : String) := by
    constructor
    · decide
    · decide
  have hsh2 := shlexSplit_two "BaseModel" i hBM htok
  have humem : u ∈ vals st := List.mem_map.mpr ⟨("User." ++ i, u), hmem, rfl⟩
  refine ⟨?_, ?_, ?_⟩
  · rw [do_show, hsh2, Option.map_some']
    unfold do_show_tokens
    simp only [List.headD_cons, List.getD_cons_succ, List.getD_cons_zero]
    rw [if_neg (by
        rintro (hc | hc)
        · exact List.cons_ne_nil _ _ hc
        · exact absurd hc (by decide)),
      if_neg (by simp),
      if_pos (by decide)]
    obtain ⟨t, hf⟩ := filter_head_unique
      (p := fun o => isinstance o "BaseModel" && o.id == i)
      humem
      (by
        have hU : ("User" : String) ∈ class_mapping := by decide
        simp [isinstance, hcls, hid, hU])
      (by
        intro o ho hpo
        simp only [Bool.and_eq_true, beq_iff_eq] at hpo
        exact huniq o ho hpo.2)
    rw [hf]
  · rw [do_destroy, hsh2, Option.map_some']
    unfold do_destroy_tokens
    simp only [List.headD_cons, List.getD_cons_succ, List.getD_cons_zero]
    rw [if_neg (by
        rintro (hc | hc)
        · exact List.cons_ne_nil _ _ hc
        · exact absurd hc (by decide)),
      if_neg (by simp)]
    have hk2 : lookupStr st ("BaseModel" ++ "." ++ i) = none := hkey
    rw [hk2]
  · have hattr : plainTok ("attr" : String) := by
      constructor
      · decide
      · decide
    have hval : plainTok ("val" : String) := by
      constructor
      · decide
      · decide
    rw [do_update, shlexSplit_four "BaseModel" i "attr" "val" hBM htok hattr hval,
      Option.map_some']
    unfold do_update_tokens
    simp only [List.headD_cons, List.getD_cons_succ, List.getD_cons_zero]
    rw [if_neg (by
        rintro (hc | hc)
        · exact List.cons_ne_nil _ _ hc
        · exact absurd hc (by decide)),
      if_neg (by simp)]
    have hk2 : lookupStr st ("BaseModel" ++ "." ++ i) = none := hkey
    rw [hk2]

/-- Witness for C8 on a one-User mapping. -/
theorem c8_witness :
    do_show [("User." ++ "u1", ⟨"User", "u1", []⟩)] ("BaseModel" ++ " " ++ "u1") =
      some ⟨[objStr ⟨"User", "u1", []⟩], [("User." ++ "u1", ⟨"User", "u1", []⟩)],
        false⟩ ∧
    do_destroy [("User." ++ "u1", ⟨"User", "u1", []⟩)]
        ("BaseModel" ++ " " ++ "u1") =
      some ⟨[msgNoInstance], [("User." ++ "u1", ⟨"User", "u1", []⟩)], false⟩ :=
  ⟨(c8_show_poly_destroy_key [("User." ++ "u1", ⟨"User", "u1", []⟩)]
      ⟨"User", "u1", []⟩ "u1" (by simp) (by decide) (by decide)
      ⟨by decide, by decide⟩ (by decide) (by decide)).1,
    (c8_show_poly_destroy_key [("User." ++ "u1", ⟨"User", "u1", []⟩)]
      ⟨"User", "u1", []⟩ "u1" (by simp) (by decide) (by decide)
      ⟨by decide, by decide⟩ (by decide) (by decide)).2.1⟩



theorem comma_data : ("," : String).data = [commaChar] := by decide

theorem comma_append_data (s t : String) :
    (s ++ "," ++ t).data = s.data ++ (commaChar :: t.data) := by
  rw [String.data_append, String.data_append, comma_data]
  simp

theorem pySplit_comma_cons (s t : String) (h : commaChar ∉ s.data) :
    pySplit (s ++ "," ++ t) commaChar = s :: pySplit t commaChar := by
  unfold pySplit
  rw [comma_append_data, splitOnCharL_append commaChar s.data t.data h]
  rfl

/-- C2 counterexample: in dotted `update`, a value containing a comma is
cut at that comma — the text after a third comma is discarded instead of
being part of the literal value.  On `User.update(i1, a, x,y)` the stored
value is `x`, not the remainder `x,y`. -/
theorem c2_counterexample :
    defaultUpdateParse "i1, a, x,y)" = some ("i1", "a", "x") ∧
    ("x" : String) ≠ "x,y" ∧
    defaultStep [("User.i1", ⟨"User", "i1", []⟩)] "User.update(i1, a, x,y)" =
      some ⟨[], [("User.i1", ⟨"User", "i1", [("a", "x")]⟩)], true⟩ := by
  refine ⟨by decide, by decide, by decide⟩

/-- C2 (amended): the dotted `update` argument text is split on every
comma, not just the first two; the first field with surrounding quotes
(but not whitespace) stripped is the id, the second field with commas,
whitespace and quotes stripped is the attribute name, and the third field
with whitespace and closing parentheses stripped is the value — anything
after a third comma is discarded. -/
theorem c2_update_comma_split (s0 s1 s2 rest : String)
    (h0 : commaChar ∉ s0.data) (h1 : commaChar ∉ s1.data)
    (h2 : commaChar ∉ s2.data) :
    defaultUpdateParse (s0 ++ "," ++ (s1 ++ "," ++ (s2 ++ "," ++ rest))) =
      some (pyStrip [dquoteChar] (pyStrip [squoteChar] s0),
        pyStrip [dquoteChar]
          (pyStrip [squoteChar] (pyStrip [spaceChar] (pyStrip [commaChar] s1))),
        pyStrip [cparenChar] (pyStrip [spaceChar] s2)) := by
  unfold defaultUpdateParse
  rw [pySplit_comma_cons s0 _ h0, pySplit_comma_cons s1 _ h1,
    pySplit_comma_cons s2 _ h2]

/-- Witness for C2 (amended) at a concrete argument text with a fourth
comma field that is dropped. -/
theorem c2_witness :
    defaultUpdateParse ("i1" ++ "," ++ (" a" ++ "," ++ (" x" ++ "," ++ "y)"))) =
      some ("i1", "a", "x") := by
  have h := c2_update_comma_split "i1" " a" " x" "y)"
    (by decide) (by decide) (by decide)
  rw [h]
  decide



theorem defaultStep_unknown (st : Storage) (line : String)
    (h : (pySplit line dotChar).length ≤ 1 ∨
      ¬ ((pySplit ((pySplit line dotChar).getD 1 "") oparenChar).headD "")
          ∈ dottedVerbs) :
    defaultStep st line = some ⟨["*** Unknown syntax: " ++ line], st, false⟩ := by
  unfold defaultStep
  cases hs : pySplit line dotChar with
  | nil => rfl
  | cons a rest =>
    cases rest with
    | nil => rfl
    | cons b rest2 =>
      rcases h with hlen | hcmd
      · rw [hs] at hlen
        simp at hlen
      · rw [hs] at hcmd
        simp only [List.getD_cons_succ, List.getD_cons_zero] at hcmd
        dsimp only
        rw [if_neg (by intro hc; exact hcmd (by rw [hc]; decide)),
          if_neg (by intro hc; exact hcmd (by rw [hc]; decide)),
          if_neg (by intro hc; exact hcmd (by rw [hc]; decide)),
          if_neg (by intro hc; exact hcmd (by rw [hc]; decide)),
          if_neg (by intro hc; exact hcmd (by rw [hc]; decide))]

/-- C7 counterexample: the malformed line `User.show(x` matches neither the
verb-first form nor the dotted form (it has no closing parenthesis), yet the
dispatcher does not print the unknown-syntax message — it executes `show`
and prints the not-found message. -/
theorem c7_counterexample :
    specVerbFirst "User.show(x" = false ∧
    specDottedForm "User.show(x" = false ∧
    onecmd "f" [] "User.show(x" = some ⟨[msgNoInstance], [], false, false⟩ ∧
    msgNoInstance ≠ "*** Unknown syntax: User.show(x" := by
  refine ⟨by decide, by decide, by decide, by decide⟩

/-- C7 (amended): a nonempty line that is not rewritten to `help` by a
leading question mark, whose identifier prefix is not a recognized verb,
and that either contains no dot or carries an unrecognized verb in its
dotted command slot, makes the dispatcher print exactly the generic
unknown-syntax message; the loop continues and nothing is mutated. -/
theorem c7_unknown_syntax (freshId : String) (st : Storage) (raw : String)
    (hne : ¬ pyStripWs raw = "")
    (hq : ¬ (pyStripWs raw).data.headD spaceChar = qmarkChar)
    (hident : ¬ String.mk ((pyStripWs raw).data.takeWhile isIdentChar)
        ∈ commandVerbs)
    (hdot : (pySplit (pyStripWs raw) dotChar).length ≤ 1 ∨
      ¬ ((pySplit ((pySplit (pyStripWs raw) dotChar).getD 1 "") oparenChar).headD "")
          ∈ dottedVerbs) :
    onecmd freshId st raw =
      some ⟨["*** Unknown syntax: " ++ pyStripWs raw], st, false, false⟩ := by
  have hstep := defaultStep_unknown st (pyStripWs raw) hdot
  unfold onecmd
  simp only [if_neg hne, if_neg hq]
  by_cases hb : (pyStripWs raw).data.headD spaceChar = bangChar
  · rw [if_pos hb, hstep]
    rfl
  · rw [if_neg hb]
    by_cases hid0 : String.mk ((pyStripWs raw).data.takeWhile isIdentChar) = ""
    · rw [if_pos hid0, hstep]
      rfl
    · rw [if_neg hid0,
        if_neg (by intro hc; exact hident (by rw [hc]; decide)),
        if_neg (by intro hc; exact hident (by rw [hc]; decide)),
        if_neg (by intro hc; exact hident (by rw [hc]; decide)),
        if_neg (by intro hc; exact hident (by rw [hc]; decide)),
        if_neg (by intro hc; exact hident (by rw [hc]; decide)),
        if_neg (by intro hc; exact hident (by rw [hc]; decide)),
        if_neg (by intro hc; exact hident (by rw [hc]; decide)),
        if_neg (by intro hc; exact hident (by rw [hc]; decide)),
        if_neg (by intro hc; exact hident (by rw [hc]; decide)),
        hstep]
      rfl

/-- Witness for C7 (amended) on the malformed line `Foo.bar()`. -/
theorem c7_witness :
    onecmd "f" [] "Foo.bar()" =
      some ⟨["*** Unknown syntax: " ++ pyStripWs "Foo.bar()"], [], false, false⟩ :=
  c7_unknown_syntax "f" [] "Foo.bar()" (by decide) (by decide) (by decide)
    (Or.inr (by decide))



/-! Lemmas supporting the dotted-notation equivalence. -/

theorem getLast?_append_right (l1 l2 : List Char) (h : l2 ≠ []) :
    (l1 ++ l2).getLast? = l2.getLast? := by
  rcases List.eq_nil_or_concat l2 with rfl | ⟨L, b, rfl⟩
  · exact absurd rfl h
  · simp only [List.concat_eq_append]
    rw [List.getLast?_concat, ← List.append_assoc, List.getLast?_concat]

theorem plain_char_ne (c : Char) (h : plainChar c = true) :
    ¬ c = squoteChar ∧ ¬ c = dquoteChar ∧ ¬ c = dotChar ∧ ¬ c = oparenChar ∧
    ¬ c = cparenChar ∧ ¬ c = commaChar ∧ ¬ c = spaceChar := by
  obtain ⟨h1, _, _, _, _, _, h7, h8, h9, h10, h11, h12⟩ := (plainChar_iff c).mp h
  exact ⟨h7, h8, h9, h10, h11, h12, h1⟩

theorem plain_not_mem_char (t : String) (h : ∀ c ∈ t.data, plainChar c = true)
    (x : Char)
    (hx : x ∈ ([spaceChar, tabChar, nlChar, crChar, Char.ofNat 11, Char.ofNat 12,
      squoteChar, dquoteChar, dotChar, oparenChar, cparenChar,
      commaChar] : List Char)) : x ∉ t.data := by
  intro hm
  have hp := h x hm
  simp only [plainChar, decide_eq_true_eq] at hp
  exact hp hx

theorem plain_not_ws (t : String) (h : ∀ c ∈ t.data, plainChar c = true) :
    ∀ c ∈ t.data, c ∉ wsChars := by
  intro c hc hw
  have hp := h c hc
  simp only [plainChar, decide_eq_true_eq] at hp
  simp only [wsChars, List.mem_cons, List.mem_singleton, List.not_mem_nil] at hw
  apply hp
  simp only [List.mem_cons]
  tauto

theorem nm_append {c : Char} {l1 l2 : List Char} (h1 : c ∉ l1) (h2 : c ∉ l2) :
    c ∉ l1 ++ l2 := by
  simp only [List.mem_append]
  tauto

theorem nm_cons {c d : Char} {l : List Char} (h1 : ¬ c = d) (h2 : c ∉ l) :
    c ∉ d :: l := by
  simp only [List.mem_cons]
  tauto

theorem pyStripL_cons_of_mem (chars : List Char) (c : Char) (hc : c ∈ chars)
    (X : List Char) : pyStripL chars (c :: X) = pyStripL chars X := by
  unfold pyStripL
  rw [List.dropWhile_cons_of_pos (by simpa using hc)]

theorem pyStripL_append_of_mem (chars : List Char) (c : Char) (hc : c ∈ chars)
    (X : List Char) : pyStripL chars (X ++ [c]) = pyStripL chars X := by
  unfold pyStripL
  rw [List.dropWhile_append]
  by_cases hX : (X.dropWhile (fun c => decide (c ∈ chars))).isEmpty
  · rw [if_pos hX]
    have h1 : ([c].dropWhile (fun c => decide (c ∈ chars))) = [] := by
      rw [List.dropWhile_cons_of_pos (by simpa using hc)]
      rfl
    have h2 : X.dropWhile (fun c => decide (c ∈ chars)) = [] := by
      simpa [List.isEmpty_iff] using hX
    rw [h1, h2]
  · rw [if_neg hX,
      show (X.dropWhile (fun c => decide (c ∈ chars)) ++ [c]).reverse =
        c :: (X.dropWhile (fun c => decide (c ∈ chars))).reverse from by simp,
      List.dropWhile_cons_of_pos (by simpa using hc)]

theorem pyStripWs_noop (s : String) (h1 : ∀ c ∈ s.data.head?, c ∉ wsChars)
    (h2 : ∀ c ∈ s.data.getLast?, c ∉ wsChars) : pyStripWs s = s := by
  unfold pyStripWs pyStrip
  rw [pyStripL_eq_self wsChars s.data h1 h2]

theorem head?_not_ws_left (C : String) (hC : plainTok C) (Y : List Char) :
    ∀ c ∈ (C.data ++ Y).head?, c ∉ wsChars := by
  obtain ⟨c0, ct, h0⟩ := List.exists_cons_of_ne_nil hC.1
  rw [h0]
  intro c hc
  simp only [List.cons_append, List.head?_cons] at hc
  have hcc : c0 = c := by simpa using hc
  subst hcc
  exact plain_not_ws C hC.2 c0 (h0 ▸ List.mem_cons_self c0 ct)

theorem pyStripL_drop_space (chars : List Char) (hsp : spaceChar ∈ chars)
    (x : Char) (hx : x ∉ chars) (mid : List Char) (y : Char) (hy : y ∉ chars) :
    pyStripL chars (spaceChar :: (x :: (mid ++ [y]))) = x :: (mid ++ [y]) := by
  rw [pyStripL_cons_of_mem chars spaceChar hsp]
  refine pyStripL_eq_self chars _ ?_ ?_
  · intro c hc
    simp only [List.head?_cons] at hc
    have hcc : x = c := by simpa using hc
    subst hcc
    exact hx
  · intro c hc
    rw [show x :: (mid ++ [y]) = (x :: mid) ++ [y] from by simp,
      List.getLast?_concat] at hc
    have hcc : y = c := by simpa using hc
    subst hcc
    exact hy

theorem class_names_ok : ∀ C ∈ class_mapping, plainTok C ∧
    (∀ c ∈ C.data, isIdentChar c = true) ∧ ¬ C ∈ commandVerbs := by decide

theorem onecmd_to_default (freshId : String) (st : Storage) (line : String)
    (hstrip : pyStripWs line = line) (hne : ¬ line = "")
    (hq : ¬ line.data.headD spaceChar = qmarkChar)
    (hident : ¬ String.mk (line.data.takeWhile isIdentChar) ∈ commandVerbs) :
    onecmd freshId st line = (defaultStep st line).map toStep := by
  unfold onecmd
  simp only [hstrip, if_neg hne, if_neg hq]
  by_cases hb : line.data.headD spaceChar = bangChar
  · rw [if_pos hb]
  · rw [if_neg hb]
    by_cases hid0 : String.mk (line.data.takeWhile isIdentChar) = ""
    · rw [if_pos hid0]
    · rw [if_neg hid0,
        if_neg (by intro hc; exact hident (by rw [hc]; decide)),
        if_neg (by intro hc; exact hident (by rw [hc]; decide)),
        if_neg (by intro hc; exact hident (by rw [hc]; decide)),
        if_neg (by intro hc; exact hident (by rw [hc]; decide)),
        if_neg (by intro hc; exact hident (by rw [hc]; decide)),
        if_neg (by intro hc; exact hident (by rw [hc]; decide)),
        if_neg (by intro hc; exact hident (by rw [hc]; decide)),
        if_neg (by intro hc; exact hident (by rw [hc]; decide)),
        if_neg (by intro hc; exact hident (by rw [hc]; decide))]



theorem line_show_data (C id : String) :
    (C ++ ".show(" ++ dquoteStr ++ id ++ dquoteStr ++ ")").data =
      C.data ++ dotChar :: (("show" : String).data ++ oparenChar ::
        (dquoteChar :: (id.data ++ [dquoteChar, cparenChar]))) := by
  simp only [String.data_append, show dquoteStr.data = [dquoteChar] from rfl]
  simp only [List.append_assoc, List.cons_append, List.singleton_append,
    List.nil_append]
  rfl

theorem defaultStep_show (st : Storage) (C id : String)
    (hC : plainTok C) (hid : plainTok id) :
    defaultStep st (C ++ ".show(" ++ dquoteStr ++ id ++ dquoteStr ++ ")") =
      do_show st (C ++ " " ++ id) := by
  have hnd2 : dotChar ∉ (("show" : String).data ++ oparenChar ::
      (dquoteChar :: (id.data ++ [dquoteChar, cparenChar]))) :=
    nm_append (by decide) (nm_cons (by decide) (nm_cons (by decide)
      (nm_append (plain_not_mem_char id hid.2 dotChar (by decide)) (by decide))))
  have hsplit1 : pySplit (C ++ ".show(" ++ dquoteStr ++ id ++ dquoteStr ++ ")")
      dotChar = [C, String.mk (("show" : String).data ++ oparenChar ::
        (dquoteChar :: (id.data ++ [dquoteChar, cparenChar])))] := by
    unfold pySplit
    rw [line_show_data, splitOnCharL_append dotChar C.data _
        (plain_not_mem_char C hC.2 dotChar (by decide)),
      splitOnCharL_of_not_mem dotChar _ hnd2]
    rfl
  have hsplit2 : pySplit (String.mk (("show" : String).data ++ oparenChar ::
      (dquoteChar :: (id.data ++ [dquoteChar, cparenChar])))) oparenChar =
      ["show", String.mk (dquoteChar :: (id.data ++ [dquoteChar, cparenChar]))] := by
    unfold pySplit
    rw [show (String.mk (("show" : String).data ++ oparenChar ::
        (dquoteChar :: (id.data ++ [dquoteChar, cparenChar])))).data =
        ("show" : String).data ++ oparenChar ::
          (dquoteChar :: (id.data ++ [dquoteChar, cparenChar])) from rfl,
      splitOnCharL_append oparenChar _ _ (by decide),
      splitOnCharL_of_not_mem oparenChar _
        (nm_cons (by decide) (nm_append
          (plain_not_mem_char id hid.2 oparenChar (by decide)) (by decide)))]
    rfl
  have hsplit3 : pySplit (String.mk (dquoteChar ::
      (id.data ++ [dquoteChar, cparenChar]))) cparenChar =
      [String.mk (dquoteChar :: (id.data ++ [dquoteChar])), ""] := by
    unfold pySplit
    rw [show (String.mk (dquoteChar :: (id.data ++ [dquoteChar, cparenChar]))).data
        = (dquoteChar :: (id.data ++ [dquoteChar])) ++ cparenChar :: [] from by
          simp,
      splitOnCharL_append cparenChar _ _
        (nm_cons (by decide) (nm_append
          (plain_not_mem_char id hid.2 cparenChar (by decide)) (by decide)))]
    rfl
  have hstrip1 : pyStrip [squoteChar]
      (String.mk (dquoteChar :: (id.data ++ [dquoteChar]))) =
      String.mk (dquoteChar :: (id.data ++ [dquoteChar])) := by
    unfold pyStrip
    rw [pyStripL_eq_self_of_all [squoteChar] _ (by
      intro c hc
      rcases List.mem_cons.mp hc with rfl | hc2
      · decide
      · rcases List.mem_append.mp hc2 with hc3 | hc3
        · simp only [List.mem_singleton]
          exact (plain_char_ne c (hid.2 c hc3)).1
        · simp only [List.mem_singleton] at hc3
          subst hc3
          decide)]
  have hstrip2 : pyStrip [dquoteChar]
      (String.mk (dquoteChar :: (id.data ++ [dquoteChar]))) = id := by
    unfold pyStrip
    rw [show (String.mk (dquoteChar :: (id.data ++ [dquoteChar]))).data =
        dquoteChar :: (id.data ++ [dquoteChar]) from rfl,
      pyStripL_quoted dquoteChar id.data
        (fun c hc => (plain_char_ne c (hid.2 c hc)).2.1)]
  unfold defaultStep
  rw [hsplit1]
  dsimp only
  rw [hsplit2]
  simp only [List.headD_cons, List.get?_cons_succ, List.get?_cons_zero]
  rw [if_neg (by decide), if_neg (by decide), if_pos trivial]
  rw [hsplit3]
  simp only [List.headD_cons]
  rw [hstrip1, hstrip2]



theorem onecmd_dotted_show (freshId : String) (st : Storage) (C id : String)
    (hC : plainTok C) (hCi : ∀ c ∈ C.data, isIdentChar c = true)
    (hCv : ¬ C ∈ commandVerbs) (hid : plainTok id) :
    onecmd freshId st (C ++ ".show(" ++ dquoteStr ++ id ++ dquoteStr ++ ")") =
      (do_show st (C ++ " " ++ id)).map toStep := by
  have hdata := line_show_data C id
  obtain ⟨c0, ct, h0⟩ := List.exists_cons_of_ne_nil hC.1
  have hc0mem : c0 ∈ C.data := h0 ▸ List.mem_cons_self c0 ct
  have hstrip : pyStripWs (C ++ ".show(" ++ dquoteStr ++ id ++ dquoteStr ++ ")") =
      C ++ ".show(" ++ dquoteStr ++ id ++ dquoteStr ++ ")" := by
    apply pyStripWs_noop
    · rw [hdata]
      exact head?_not_ws_left C hC _
    · rw [hdata,
        show C.data ++ dotChar :: (("show" : String).data ++ oparenChar ::
          (dquoteChar :: (id.data ++ [dquoteChar, cparenChar]))) =
          (C.data ++ dotChar :: (("show" : String).data ++ oparenChar ::
            (dquoteChar :: (id.data ++ [dquoteChar])))) ++ [cparenChar] from by
          simp,
        List.getLast?_concat]
      intro c hc
      have hcc : cparenChar = c := by simpa using hc
      subst hcc
      decide
  have hne : ¬ (C ++ ".show(" ++ dquoteStr ++ id ++ dquoteStr ++ ")") = "" := by
    intro h
    have hd := congrArg String.data h
    rw [hdata, h0] at hd
    simp at hd
  have hq : ¬ (C ++ ".show(" ++ dquoteStr ++ id ++ dquoteStr ++
      ")").data.headD spaceChar = qmarkChar := by
    rw [hdata, h0]
    intro h
    have h2 : c0 = qmarkChar := h
    have h3 := hCi c0 hc0mem
    rw [h2] at h3
    exact absurd h3 (by decide)
  have hTW : String.mk ((C ++ ".show(" ++ dquoteStr ++ id ++ dquoteStr ++
      ")").data.takeWhile isIdentChar) = C := by
    rw [hdata, List.takeWhile_append_of_pos hCi,
      List.takeWhile_cons_of_neg (by decide), List.append_nil]
  rw [onecmd_to_default freshId st _ hstrip hne hq (by rw [hTW]; exact hCv),
    defaultStep_show st C id hC hid]

theorem line_vshow_data (C id : String) :
    ("show " ++ C ++ " " ++ id).data =
      ("show" : String).data ++ spaceChar :: (C.data ++ spaceChar :: id.data) := by
  simp only [String.data_append]
  simp only [List.append_assoc, List.cons_append, List.singleton_append,
    List.nil_append]
  rfl

theorem onecmd_show (freshId : String) (st : Storage) (C id : String)
    (hC : plainTok C) (hid : plainTok id) :
    onecmd freshId st ("show " ++ C ++ " " ++ id) =
      (do_show st (C ++ " " ++ id)).map toStep := by
  have hdata := line_vshow_data C id
  have hstrip : pyStripWs ("show " ++ C ++ " " ++ id) =
      "show " ++ C ++ " " ++ id := by
    apply pyStripWs_noop
    · rw [hdata,
        show ("show" : String).data ++ spaceChar :: (C.data ++ spaceChar ::
          id.data) = Char.ofNat 115 :: (("how" : String).data ++ spaceChar ::
          (C.data ++ spaceChar :: id.data)) from rfl]
      intro c hc
      simp only [List.head?_cons] at hc
      have hcc : Char.ofNat 115 = c := by simpa using hc
      subst hcc
      decide
    · rw [hdata,
        show ("show" : String).data ++ spaceChar :: (C.data ++ spaceChar ::
          id.data) = (("show" : String).data ++ spaceChar :: C.data ++
          [spaceChar]) ++ id.data from by simp,
        getLast?_append_right _ id.data hid.1]
      intro c hc
      exact plain_not_ws id hid.2 c (List.mem_of_mem_getLast? hc)
  have hne : ¬ ("show " ++ C ++ " " ++ id) = "" := by
    intro h
    have hd := congrArg String.data h
    rw [hdata] at hd
    simp at hd
  have hq : ¬ ("show " ++ C ++ " " ++ id).data.headD spaceChar = qmarkChar := by
    rw [hdata]
    intro h
    exact absurd (show Char.ofNat 115 = qmarkChar from h) (by decide)
  have hb : ¬ ("show " ++ C ++ " " ++ id).data.headD spaceChar = bangChar := by
    rw [hdata]
    intro h
    exact absurd (show Char.ofNat 115 = bangChar from h) (by decide)
  have hTW : String.mk (("show " ++ C ++ " " ++ id).data.takeWhile isIdentChar) =
      "show" := by
    rw [hdata, List.takeWhile_append_of_pos (by decide),
      List.takeWhile_cons_of_neg (by decide), List.append_nil]
  have hDW : String.mk (("show " ++ C ++ " " ++ id).data.dropWhile isIdentChar) =
      String.mk (spaceChar :: (C.data ++ spaceChar :: id.data)) := by
    rw [hdata, List.dropWhile_append_of_pos (by decide),
      List.dropWhile_cons_of_neg (by decide)]
  have harg : pyStripWs (String.mk (spaceChar :: (C.data ++ spaceChar ::
      id.data))) = C ++ " " ++ id := by
    unfold pyStripWs pyStrip
    rw [show (String.mk (spaceChar :: (C.data ++ spaceChar :: id.data))).data =
        spaceChar :: (C.data ++ spaceChar :: id.data) from rfl,
      pyStripL_cons_of_mem wsChars spaceChar (by decide),
      pyStripL_eq_self wsChars _ (head?_not_ws_left C hC _) (by
        rw [show C.data ++ spaceChar :: id.data =
            (C.data ++ [spaceChar]) ++ id.data from by simp,
          getLast?_append_right _ id.data hid.1]
        intro c hc
        exact plain_not_ws id hid.2 c (List.mem_of_mem_getLast? hc))]
    apply String.ext
    rw [space_append_data]
  unfold onecmd
  simp only [hstrip, if_neg hne, if_neg hq, if_neg hb, hTW, hDW, harg]
  rw [if_neg (by decide), if_neg (by decide), if_neg (by decide),
    if_neg (by decide), if_neg (by decide), if_pos (by decide)]



theorem not_mem_update_tail (id a v : String)
    (hid2 : ∀ c ∈ id.data, plainChar c = true)
    (ha2 : ∀ c ∈ a.data, plainChar c = true)
    (hv2 : ∀ c ∈ v.data, plainChar c = true) (x : Char)
    (hxl : x ∈ ([spaceChar, tabChar, nlChar, crChar, Char.ofNat 11,
      Char.ofNat 12, squoteChar, dquoteChar, dotChar, oparenChar, cparenChar,
      commaChar] : List Char))
    (h1 : ¬ x = dquoteChar) (h2 : ¬ x = commaChar) (h3 : ¬ x = spaceChar)
    (h4 : ¬ x = cparenChar) :
    x ∉ (dquoteChar :: (id.data ++ (dquoteChar :: (commaChar :: (spaceChar :: (dquoteChar :: (a.data ++ (dquoteChar :: (commaChar :: (spaceChar :: (dquoteChar :: (v.data ++ [dquoteChar, cparenChar])))))))))))) :=
  by
  refine nm_cons h1 (nm_append (plain_not_mem_char id hid2 x hxl) ?_)
  refine nm_cons h1 (nm_cons h2 (nm_cons h3 (nm_cons h1 ?_)))
  refine nm_append (plain_not_mem_char a ha2 x hxl) ?_
  refine nm_cons h1 (nm_cons h2 (nm_cons h3 (nm_cons h1 ?_)))
  refine nm_append (plain_not_mem_char v hv2 x hxl) ?_
  exact nm_cons h1 (nm_cons h4 (List.not_mem_nil x))

theorem line_update_data (C id a v : String) :
    (C ++ ".update(" ++ dquoteStr ++ id ++ dquoteStr ++ ", " ++ dquoteStr ++ a ++ dquoteStr ++ ", " ++ dquoteStr ++ v ++ dquoteStr ++ ")").data =
      C.data ++ dotChar :: (("update" : String).data ++ oparenChar :: (dquoteChar :: (id.data ++ (dquoteChar :: (commaChar :: (spaceChar :: (dquoteChar :: (a.data ++ (dquoteChar :: (commaChar :: (spaceChar :: (dquoteChar :: (v.data ++ [dquoteChar, cparenChar]))))))))))))) := by
  simp only [String.data_append, show dquoteStr.data = [dquoteChar] from rfl]
  simp only [List.append_assoc, List.cons_append, List.singleton_append,
    List.nil_append]
  rfl

theorem defaultStep_update (st : Storage) (C id a v : String)
    (hC : plainTok C) (hid : plainTok id) (ha : plainTok a) (hv : plainTok v) :
    defaultStep st (C ++ ".update(" ++ dquoteStr ++ id ++ dquoteStr ++ ", " ++ dquoteStr ++ a ++ dquoteStr ++ ", " ++ dquoteStr ++ v ++ dquoteStr ++ ")") =
      do_update st (C ++ " " ++ id ++ " " ++ a ++ " " ++
        (dquoteStr ++ v ++ dquoteStr)) := by
  have hsplit1 : pySplit (C ++ ".update(" ++ dquoteStr ++ id ++ dquoteStr ++ ", " ++ dquoteStr ++ a ++ dquoteStr ++ ", " ++ dquoteStr ++ v ++ dquoteStr ++ ")") dotChar =
      [C, String.mk (("update" : String).data ++ oparenChar :: (dquoteChar :: (id.data ++ (dquoteChar :: (commaChar :: (spaceChar :: (dquoteChar :: (a.data ++ (dquoteChar :: (commaChar :: (spaceChar :: (dquoteChar :: (v.data ++ [dquoteChar, cparenChar])))))))))))))] := by
    unfold pySplit
    rw [line_update_data, splitOnCharL_append dotChar C.data _
        (plain_not_mem_char C hC.2 dotChar (by decide)),
      splitOnCharL_of_not_mem dotChar _
        (nm_append (by decide)
          (nm_cons (by decide)
            (not_mem_update_tail id a v hid.2 ha.2 hv.2 dotChar (by decide)
              (by decide) (by decide) (by decide) (by decide))))]
    rfl
  have hsplit2 : pySplit
      (String.mk (("update" : String).data ++ oparenChar :: (dquoteChar :: (id.data ++ (dquoteChar :: (commaChar :: (spaceChar :: (dquoteChar :: (a.data ++ (dquoteChar :: (commaChar :: (spaceChar :: (dquoteChar :: (v.data ++ [dquoteChar, cparenChar]))))))))))))))
      oparenChar = ["update", String.mk (dquoteChar :: (id.data ++ (dquoteChar :: (commaChar :: (spaceChar :: (dquoteChar :: (a.data ++ (dquoteChar :: (commaChar :: (spaceChar :: (dquoteChar :: (v.data ++ [dquoteChar, cparenChar]))))))))))))] := by
    unfold pySplit
    rw [show (String.mk (("update" : String).data ++ oparenChar ::
        (dquoteChar :: (id.data ++ (dquoteChar :: (commaChar :: (spaceChar :: (dquoteChar :: (a.data ++ (dquoteChar :: (commaChar :: (spaceChar :: (dquoteChar :: (v.data ++ [dquoteChar, cparenChar])))))))))))))).data = ("update" : String).data ++ oparenChar :: (dquoteChar :: (id.data ++ (dquoteChar :: (commaChar :: (spaceChar :: (dquoteChar :: (a.data ++ (dquoteChar :: (commaChar :: (spaceChar :: (dquoteChar :: (v.data ++ [dquoteChar, cparenChar]))))))))))))
        from rfl,
      splitOnCharL_append oparenChar _ _ (by decide),
      splitOnCharL_of_not_mem oparenChar _
        (not_mem_update_tail id a v hid.2 ha.2 hv.2 oparenChar (by decide)
          (by decide) (by decide) (by decide) (by decide))]
    rfl
  have hsplitc : pySplit (String.mk (dquoteChar :: (id.data ++ (dquoteChar :: (commaChar :: (spaceChar :: (dquoteChar :: (a.data ++ (dquoteChar :: (commaChar :: (spaceChar :: (dquoteChar :: (v.data ++ [dquoteChar, cparenChar]))))))))))))) commaChar =
      [String.mk (dquoteChar :: (id.data ++ [dquoteChar])), String.mk (spaceChar :: (dquoteChar :: (a.data ++ [dquoteChar]))), String.mk (spaceChar :: (dquoteChar :: (v.data ++ [dquoteChar, cparenChar])))] := by
    unfold pySplit
    rw [show (String.mk (dquoteChar :: (id.data ++ (dquoteChar :: (commaChar :: (spaceChar :: (dquoteChar :: (a.data ++ (dquoteChar :: (commaChar :: (spaceChar :: (dquoteChar :: (v.data ++ [dquoteChar, cparenChar]))))))))))))).data =
        (dquoteChar :: (id.data ++ [dquoteChar])) ++ commaChar :: ((spaceChar :: (dquoteChar :: (a.data ++ [dquoteChar]))) ++ commaChar :: (spaceChar :: (dquoteChar :: (v.data ++ [dquoteChar, cparenChar])))) from by simp,
      splitOnCharL_append commaChar _ _
        (nm_cons (by decide) (nm_append
          (plain_not_mem_char id hid.2 commaChar (by decide)) (by decide))),
      splitOnCharL_append commaChar _ _
        (nm_cons (by decide) (nm_cons (by decide) (nm_append
          (plain_not_mem_char a ha.2 commaChar (by decide)) (by decide)))),
      splitOnCharL_of_not_mem commaChar _
        (nm_cons (by decide) (nm_cons (by decide) (nm_append
          (plain_not_mem_char v hv.2 commaChar (by decide)) (by decide))))]
    rfl
  have hid1 : pyStrip [squoteChar] (String.mk (dquoteChar :: (id.data ++ [dquoteChar]))) = String.mk (dquoteChar :: (id.data ++ [dquoteChar])) := by
    unfold pyStrip
    rw [pyStripL_eq_self_of_all [squoteChar] _ (by
      intro c hc
      simp only [List.mem_singleton]
      rcases List.mem_cons.mp hc with rfl | hc2
      · decide
      · rcases List.mem_append.mp hc2 with hc3 | hc3
        · exact (plain_char_ne c (hid.2 c hc3)).1
        · simp only [List.mem_singleton] at hc3
          subst hc3
          decide)]
  have hid2 : pyStrip [dquoteChar] (String.mk (dquoteChar :: (id.data ++ [dquoteChar]))) = id := by
    unfold pyStrip
    rw [show (String.mk (dquoteChar :: (id.data ++ [dquoteChar]))).data = dquoteChar :: (id.data ++ [dquoteChar]) from rfl,
      pyStripL_quoted dquoteChar id.data
        (fun c hc => (plain_char_ne c (hid.2 c hc)).2.1)]
  have hn1 : pyStrip [commaChar] (String.mk (spaceChar :: (dquoteChar :: (a.data ++ [dquoteChar])))) = String.mk (spaceChar :: (dquoteChar :: (a.data ++ [dquoteChar]))) := by
    unfold pyStrip
    rw [pyStripL_eq_self_of_all [commaChar] _ (by
      intro c hc
      simp only [List.mem_singleton]
      rcases List.mem_cons.mp hc with rfl | hc2
      · decide
      · rcases List.mem_cons.mp hc2 with rfl | hc3
        · decide
        · rcases List.mem_append.mp hc3 with hc4 | hc4
          · exact (plain_char_ne c (ha.2 c hc4)).2.2.2.2.2.1
          · simp only [List.mem_singleton] at hc4
            subst hc4
            decide)]
  have hn2 : pyStrip [spaceChar] (String.mk (spaceChar :: (dquoteChar :: (a.data ++ [dquoteChar])))) =
      String.mk (dquoteChar :: (a.data ++ [dquoteChar])) := by
    unfold pyStrip
    rw [show (String.mk (spaceChar :: (dquoteChar :: (a.data ++ [dquoteChar])))).data = spaceChar :: (dquoteChar :: (a.data ++ [dquoteChar])) from rfl,
      pyStripL_drop_space [spaceChar] (by decide) dquoteChar (by decide)
        a.data dquoteChar (by decide)]
  have hn3 : pyStrip [squoteChar]
      (String.mk (dquoteChar :: (a.data ++ [dquoteChar]))) =
      String.mk (dquoteChar :: (a.data ++ [dquoteChar])) := by
    unfold pyStrip
    rw [pyStripL_eq_self_of_all [squoteChar] _ (by
      intro c hc
      simp only [List.mem_singleton]
      rcases List.mem_cons.mp hc with rfl | hc2
      · decide
      · rcases List.mem_append.mp hc2 with hc3 | hc3
        · exact (plain_char_ne c (ha.2 c hc3)).1
        · simp only [List.mem_singleton] at hc3
          subst hc3
          decide)]
  have hn4 : pyStrip [dquoteChar]
      (String.mk (dquoteChar :: (a.data ++ [dquoteChar]))) = a := by
    unfold pyStrip
    rw [show (String.mk (dquoteChar :: (a.data ++ [dquoteChar]))).data =
        dquoteChar :: (a.data ++ [dquoteChar]) from rfl,
      pyStripL_quoted dquoteChar a.data
        (fun c hc => (plain_char_ne c (ha.2 c hc)).2.1)]
  have hv1 : pyStrip [spaceChar] (String.mk (spaceChar :: (dquoteChar :: (v.data ++ [dquoteChar, cparenChar])))) =
      String.mk (dquoteChar :: ((v.data ++ [dquoteChar]) ++ [cparenChar])) := by
    unfold pyStrip
    rw [show (String.mk (spaceChar :: (dquoteChar :: (v.data ++ [dquoteChar, cparenChar])))).data = spaceChar :: (dquoteChar ::
        ((v.data ++ [dquoteChar]) ++ [cparenChar])) from by simp,
      pyStripL_drop_space [spaceChar] (by decide) dquoteChar (by decide)
        (v.data ++ [dquoteChar]) cparenChar (by decide)]
  have hv2 : pyStrip [cparenChar]
      (String.mk (dquoteChar :: ((v.data ++ [dquoteChar]) ++ [cparenChar]))) =
      String.mk (dquoteChar :: (v.data ++ [dquoteChar])) := by
    unfold pyStrip
    rw [show (String.mk (dquoteChar :: ((v.data ++ [dquoteChar]) ++
        [cparenChar]))).data = (dquoteChar :: (v.data ++ [dquoteChar])) ++
        [cparenChar] from by simp,
      pyStripL_append_of_mem [cparenChar] cparenChar (by decide) _,
      pyStripL_eq_self_of_all [cparenChar] _ (by
        intro c hc
        simp only [List.mem_singleton]
        rcases List.mem_cons.mp hc with rfl | hc2
        · decide
        · rcases List.mem_append.mp hc2 with hc3 | hc3
          · exact (plain_char_ne c (hv.2 c hc3)).2.2.2.2.1
          · simp only [List.mem_singleton] at hc3
            subst hc3
            decide)]
  have hupd : defaultUpdateParse (String.mk (dquoteChar :: (id.data ++ (dquoteChar :: (commaChar :: (spaceChar :: (dquoteChar :: (a.data ++ (dquoteChar :: (commaChar :: (spaceChar :: (dquoteChar :: (v.data ++ [dquoteChar, cparenChar]))))))))))))) =
      some (id, a, String.mk (dquoteChar :: (v.data ++ [dquoteChar]))) := by
    unfold defaultUpdateParse
    rw [hsplitc]
    dsimp only
    rw [hn1, hn2, hn3, hn4, hid1, hid2, hv1, hv2]
  have hvq : String.mk (dquoteChar :: (v.data ++ [dquoteChar])) =
      dquoteStr ++ v ++ dquoteStr := by
    apply String.ext
    simp only [String.data_append, show dquoteStr.data = [dquoteChar] from rfl]
    simp
  unfold defaultStep
  rw [hsplit1]
  dsimp only
  rw [hsplit2]
  simp only [List.headD_cons, List.get?_cons_succ, List.get?_cons_zero]
  rw [if_neg (by decide), if_neg (by decide), if_neg (by decide),
    if_neg (by decide), if_pos (by decide)]
  rw [hupd]
  dsimp only
  rw [hvq]



theorem onecmd_dotted_update (freshId : String) (st : Storage) (C id a v : String)
    (hC : plainTok C) (hCi : ∀ c ∈ C.data, isIdentChar c = true)
    (hCv : ¬ C ∈ commandVerbs) (hid : plainTok id) (ha : plainTok a)
    (hv : plainTok v) :
    onecmd freshId st (C ++ ".update(" ++ dquoteStr ++ id ++ dquoteStr ++ ", " ++ dquoteStr ++ a ++ dquoteStr ++ ", " ++ dquoteStr ++ v ++ dquoteStr ++ ")") =
      (do_update st (C ++ " " ++ id ++ " " ++ a ++ " " ++
        (dquoteStr ++ v ++ dquoteStr))).map toStep := by
  have hdata := line_update_data C id a v
  obtain ⟨c0, ct, h0⟩ := List.exists_cons_of_ne_nil hC.1
  have hc0mem : c0 ∈ C.data := h0 ▸ List.mem_cons_self c0 ct
  have hstrip : pyStripWs (C ++ ".update(" ++ dquoteStr ++ id ++ dquoteStr ++ ", " ++ dquoteStr ++ a ++ dquoteStr ++ ", " ++ dquoteStr ++ v ++ dquoteStr ++ ")") = C ++ ".update(" ++ dquoteStr ++ id ++ dquoteStr ++ ", " ++ dquoteStr ++ a ++ dquoteStr ++ ", " ++ dquoteStr ++ v ++ dquoteStr ++ ")" := by
    apply pyStripWs_noop
    · rw [hdata]
      exact head?_not_ws_left C hC _
    · rw [hdata,
        show C.data ++ dotChar :: (("update" : String).data ++ oparenChar ::
          (dquoteChar :: (id.data ++ (dquoteChar :: (commaChar :: (spaceChar :: (dquoteChar :: (a.data ++ (dquoteChar :: (commaChar :: (spaceChar :: (dquoteChar :: (v.data ++ [dquoteChar, cparenChar]))))))))))))) =
          (C.data ++ dotChar :: (("update" : String).data ++ oparenChar ::
            (dquoteChar :: (id.data ++ (dquoteChar :: (commaChar :: (spaceChar :: (dquoteChar :: (a.data ++ (dquoteChar :: (commaChar :: (spaceChar :: (dquoteChar :: (v.data ++ [dquoteChar])))))))))))))) ++ [cparenChar] from by simp,
        List.getLast?_concat]
      intro c hc
      have hcc : cparenChar = c := by simpa using hc
      subst hcc
      decide
  have hne : ¬ (C ++ ".update(" ++ dquoteStr ++ id ++ dquoteStr ++ ", " ++ dquoteStr ++ a ++ dquoteStr ++ ", " ++ dquoteStr ++ v ++ dquoteStr ++ ")") = "" := by
    intro h
    have hd := congrArg String.data h
    rw [hdata, h0] at hd
    simp at hd
  have hq : ¬ (C ++ ".update(" ++ dquoteStr ++ id ++ dquoteStr ++ ", " ++ dquoteStr ++ a ++ dquoteStr ++ ", " ++ dquoteStr ++ v ++ dquoteStr ++ ")").data.headD spaceChar = qmarkChar := by
    rw [hdata, h0]
    intro h
    have h2 : c0 = qmarkChar := h
    have h3 := hCi c0 hc0mem
    rw [h2] at h3
    exact absurd h3 (by decide)
  have hTW : String.mk ((C ++ ".update(" ++ dquoteStr ++ id ++ dquoteStr ++ ", " ++ dquoteStr ++ a ++ dquoteStr ++ ", " ++ dquoteStr ++ v ++ dquoteStr ++ ")").data.takeWhile isIdentChar) = C := by
    rw [hdata, List.takeWhile_append_of_pos hCi,
      List.takeWhile_cons_of_neg (by decide), List.append_nil]
  rw [onecmd_to_default freshId st _ hstrip hne hq (by rw [hTW]; exact hCv),
    defaultStep_update st C id a v hC hid ha hv]

theorem line_vupdate_data (C id a v : String) :
    ("update " ++ C ++ " " ++ id ++ " " ++ a ++ " " ++ v).data =
      ("update" : String).data ++ spaceChar :: (C.data ++ spaceChar ::
        (id.data ++ spaceChar :: (a.data ++ spaceChar :: v.data))) := by
  simp only [String.data_append]
  simp only [List.append_assoc, List.cons_append, List.singleton_append,
    List.nil_append]
  rfl

theorem line_vupdate_arg_data (C id a v : String) :
    (C ++ " " ++ id ++ " " ++ a ++ " " ++ v).data =
      C.data ++ spaceChar :: (id.data ++ spaceChar ::
        (a.data ++ spaceChar :: v.data)) := by
  simp only [String.data_append]
  simp only [List.append_assoc, List.cons_append, List.singleton_append,
    List.nil_append]
  rfl

theorem onecmd_update (freshId : String) (st : Storage) (C id a v : String)
    (hC : plainTok C) (hid : plainTok id) (ha : plainTok a) (hv : plainTok v) :
    onecmd freshId st ("update " ++ C ++ " " ++ id ++ " " ++ a ++ " " ++ v) =
      (do_update st (C ++ " " ++ id ++ " " ++ a ++ " " ++ v)).map toStep := by
  have hdata := line_vupdate_data C id a v
  have hstrip : pyStripWs ("update " ++ C ++ " " ++ id ++ " " ++ a ++ " " ++ v) = "update " ++ C ++ " " ++ id ++ " " ++ a ++ " " ++ v := by
    apply pyStripWs_noop
    · rw [hdata,
        show ("update" : String).data ++ spaceChar :: (C.data ++ spaceChar ::
          (id.data ++ spaceChar :: (a.data ++ spaceChar :: v.data))) =
          Char.ofNat 117 :: (("pdate" : String).data ++ spaceChar ::
            (C.data ++ spaceChar :: (id.data ++ spaceChar ::
              (a.data ++ spaceChar :: v.data)))) from rfl]
      intro c hc
      simp only [List.head?_cons] at hc
      have hcc : Char.ofNat 117 = c := by simpa using hc
      subst hcc
      decide
    · rw [hdata,
        show ("update" : String).data ++ spaceChar :: (C.data ++ spaceChar ::
          (id.data ++ spaceChar :: (a.data ++ spaceChar :: v.data))) =
          (("update" : String).data ++ spaceChar :: (C.data ++ spaceChar ::
            (id.data ++ spaceChar :: (a.data ++ [spaceChar])))) ++ v.data
          from by simp,
        getLast?_append_right _ v.data hv.1]
      intro c hc
      exact plain_not_ws v hv.2 c (List.mem_of_mem_getLast? hc)
  have hne : ¬ ("update " ++ C ++ " " ++ id ++ " " ++ a ++ " " ++ v) = "" := by
    intro h
    have hd := congrArg String.data h
    rw [hdata] at hd
    simp at hd
  have hq : ¬ ("update " ++ C ++ " " ++ id ++ " " ++ a ++ " " ++ v).data.headD spaceChar = qmarkChar := by
    rw [hdata]
    intro h
    exact absurd (show Char.ofNat 117 = qmarkChar from h) (by decide)
  have hb : ¬ ("update " ++ C ++ " " ++ id ++ " " ++ a ++ " " ++ v).data.headD spaceChar = bangChar := by
    rw [hdata]
    intro h
    exact absurd (show Char.ofNat 117 = bangChar from h) (by decide)
  have hTW : String.mk (("update " ++ C ++ " " ++ id ++ " " ++ a ++ " " ++ v).data.takeWhile isIdentChar) = "update" := by
    rw [hdata, List.takeWhile_append_of_pos (by decide),
      List.takeWhile_cons_of_neg (by decide), List.append_nil]
  have hDW : String.mk (("update " ++ C ++ " " ++ id ++ " " ++ a ++ " " ++ v).data.dropWhile isIdentChar) =
      String.mk (spaceChar :: (C.data ++ spaceChar :: (id.data ++ spaceChar ::
        (a.data ++ spaceChar :: v.data)))) := by
    rw [hdata, List.dropWhile_append_of_pos (by decide),
      List.dropWhile_cons_of_neg (by decide)]
  have harg : pyStripWs (String.mk (spaceChar :: (C.data ++ spaceChar ::
      (id.data ++ spaceChar :: (a.data ++ spaceChar :: v.data))))) =
      C ++ " " ++ id ++ " " ++ a ++ " " ++ v := by
    unfold pyStripWs pyStrip
    rw [show (String.mk (spaceChar :: (C.data ++ spaceChar :: (id.data ++
        spaceChar :: (a.data ++ spaceChar :: v.data))))).data =
        spaceChar :: (C.data ++ spaceChar :: (id.data ++ spaceChar ::
          (a.data ++ spaceChar :: v.data))) from rfl,
      pyStripL_cons_of_mem wsChars spaceChar (by decide),
      pyStripL_eq_self wsChars _ (head?_not_ws_left C hC _) (by
        rw [show C.data ++ spaceChar :: (id.data ++ spaceChar ::
            (a.data ++ spaceChar :: v.data)) =
            (C.data ++ spaceChar :: (id.data ++ spaceChar ::
              (a.data ++ [spaceChar]))) ++ v.data from by simp,
          getLast?_append_right _ v.data hv.1]
        intro c hc
        exact plain_not_ws v hv.2 c (List.mem_of_mem_getLast? hc))]
    apply String.ext
    rw [line_vupdate_arg_data]
  unfold onecmd
  simp only [hstrip, if_neg hne, if_neg hq, if_neg hb, hTW, hDW, harg]
  rw [if_neg (by decide), if_neg (by decide), if_neg (by decide),
    if_neg (by decide), if_neg (by decide), if_neg (by decide),
    if_neg (by decide), if_neg (by decide), if_pos (by decide)]

/-- C5: for every recognized class name, every state of the object mapping
and plain tokens (nonempty, free of quotes, commas, dots, parentheses and
whitespace, as uuids and simple attribute values are), the dotted forms
`C.show("id")` and `C.update("id", "attr", "val")` produce exactly the
same output, state and persistence behaviour as the verb-first commands
`show C id` and `update C id attr val`. -/
theorem c5_dotted_equivalence (freshId : String) (st : Storage)
    (C id a v : String) (hCm : C ∈ class_mapping) (hid : plainTok id)
    (ha : plainTok a) (hv : plainTok v) :
    onecmd freshId st (C ++ ".show(" ++ dquoteStr ++ id ++ dquoteStr ++ ")") =
      onecmd freshId st ("show " ++ C ++ " " ++ id) ∧
    onecmd freshId st (C ++ ".update(" ++ dquoteStr ++ id ++ dquoteStr ++ ", " ++ dquoteStr ++ a ++ dquoteStr ++ ", " ++ dquoteStr ++ v ++ dquoteStr ++ ")") = onecmd freshId st ("update " ++ C ++ " " ++ id ++ " " ++ a ++ " " ++ v) := by
  obtain ⟨hCp, hCi, hCv⟩ := class_names_ok C hCm
  constructor
  · rw [onecmd_dotted_show freshId st C id hCp hCi hCv hid,
      onecmd_show freshId st C id hCp hid]
  · rw [onecmd_dotted_update freshId st C id a v hCp hCi hCv hid ha hv,
      onecmd_update freshId st C id a v hCp hid ha hv]
    simp only [do_update]
    rw [shlexSplit_four_qlast C id a v hCp hid ha hv.2,
      shlexSplit_four C id a v hCp hid ha hv]

/-- Witness for C5 at a concrete class, id, attribute and value. -/
theorem c5_witness :
    onecmd "f" [] ("User" ++ ".show(" ++ dquoteStr ++ "u1" ++ dquoteStr ++ ")") =
      onecmd "f" [] ("show " ++ "User" ++ " " ++ "u1") :=
  (c5_dotted_equivalence "f" [] "User" "u1" "age" "7" (by decide) (by decide)
    (by decide) (by decide)).1


end HBNB
